import Mathlib

/-!
Verification of the OpenClaw turn-outcome payload builder
(`src/agents/pi-embedded-runner/run/payloads.ts`) and the warning routing &
dedup engine (`warning-routing.ts`).

The TypeScript sources are shallowly embedded as executable Lean functions.
JavaScript machine integers / `Date.now()` timestamps are modelled as `Int`
(32-bit hash arithmetic uses `Nat` with explicit `% 2^32`), `undefined`-able
values as `Option`, and the process-wide fingerprint `Map` as an
insertion-ordered association list with JavaScript `Map` semantics.
Helper modules that are not part of this repository slice (the
`pi-embedded-helpers` text/JSON helpers, reply-directive parsing, tool
formatting, channel routability) are modelled from the specification and
carry a doc comment beginning `Modelled from the spec:`.
-/

set_option maxRecDepth 100000

/-! ### Small string helpers -/

/-- Truthiness of a JavaScript `string | null | undefined` value:
`null`/`undefined` and the empty string are falsy. -/
def truthy : Option String → Bool
  | some s => !s.isEmpty
  | none => false

/-- ASCII lowercasing of one character (the fragment of JavaScript
`toLowerCase` exercised here). -/
def charLower (c : Char) : Char :=
  if 65 ≤ c.toNat && c.toNat ≤ 90 then Char.ofNat (c.toNat + 32) else c

/-- JavaScript `toLowerCase` (ASCII range; the inputs compared here are
ASCII). -/
def jsToLower (s : String) : String :=
  String.mk (s.data.map charLower)

/-- JavaScript `String.prototype.trim`. -/
def jsTrim (s : String) : String :=
  String.mk (((s.data.dropWhile Char.isWhitespace).reverse.dropWhile
    Char.isWhitespace).reverse)

def isPrefixList : List Char → List Char → Bool
  | [], _ => true
  | _ :: _, [] => false
  | p :: ps, c :: cs => p = c && isPrefixList ps cs

def containsSubList (l pat : List Char) : Bool :=
  match l with
  | [] => pat.isEmpty
  | _ :: rest => isPrefixList pat l || containsSubList rest pat

/-- Substring containment test (JavaScript `String.prototype.includes`). -/
def strContains (haystack needle : String) : Bool :=
  containsSubList haystack.data needle.data

/-- Split a character list at the characters satisfying `p` (the separators
are dropped; empty runs yield empty fragments). -/
def splitByPred (p : Char → Bool) (l : List Char) : List (List Char) :=
  l.foldr
    (fun c acc =>
      match acc with
      | [] => if p c then [[], []] else [[c]]
      | a :: rest => if p c then [] :: a :: rest else (c :: a) :: rest)
    [[]]

/-! ### SHA-1 (the hash behind `crypto.createHash("sha1")`, RFC 3174)

`buildWarningFingerprint` in `payloads.ts` calls node's SHA-1 and renders the
digest as 40 lowercase hexadecimal characters.  The implementation below is
the standard SHA-1 over the UTF-8 bytes of the input, all word arithmetic
carried out on `Nat` modulo `2^32`. -/

def hexDigitsList : List Char := "0123456789abcdef".data

def hexChar (n : Nat) : Char :=
  hexDigitsList.getD (n % 16) '0'

/-- The eight hex characters of a 32-bit word, most significant nibble first. -/
def wordToHexChars (w : Nat) : List Char :=
  [hexChar (w >>> 28), hexChar (w >>> 24), hexChar (w >>> 20), hexChar (w >>> 16),
   hexChar (w >>> 12), hexChar (w >>> 8), hexChar (w >>> 4), hexChar w]

def rotl32 (n x : Nat) : Nat :=
  ((x <<< n) ||| (x >>> (32 - n))) % 4294967296

/-- Big-endian byte rendering of `n` on `k` bytes. -/
def natToBytesBE (k n : Nat) : List Nat :=
  (List.range k).map (fun i => (n >>> ((k - 1 - i) * 8)) % 256)

/-- SHA-1 message padding: append `0x80`, zero bytes up to 56 mod 64, then the
bit length on 8 big-endian bytes. -/
def sha1Pad (msg : List Nat) : List Nat :=
  let len := msg.length
  let padZeros := (56 + 64 - ((len + 1) % 64)) % 64
  msg ++ [128] ++ List.replicate padZeros 0 ++ natToBytesBE 8 (len * 8)

def chunks64 (l : List Nat) : List (List Nat) :=
  if h : l = [] then []
  else l.take 64 :: chunks64 (l.drop 64)
termination_by l.length
decreasing_by
  have hp : 0 < l.length := List.length_pos.2 h
  simp only [List.length_drop]
  omega

def bytesToWords : List Nat → List Nat
  | a :: b :: c :: d :: rest => (a * 16777216 + b * 65536 + c * 256 + d) :: bytesToWords rest
  | _ => []

/-- Extend the 16 chunk words to the 80 words of the SHA-1 message schedule. -/
def sha1Extend (w0 : Array Nat) : Array Nat :=
  (List.range 64).foldl
    (fun w _ =>
      let i := w.size
      w.push (rotl32 1 ((w.getD (i - 3) 0) ^^^ (w.getD (i - 8) 0) ^^^
        (w.getD (i - 14) 0) ^^^ (w.getD (i - 16) 0))))
    w0

def sha1Compress (h : Nat × Nat × Nat × Nat × Nat) (chunk : List Nat) :
    Nat × Nat × Nat × Nat × Nat :=
  let w := sha1Extend (Array.mk (bytesToWords chunk))
  let st := (List.range 80).foldl
    (fun (st : Nat × Nat × Nat × Nat × Nat) i =>
      let a := st.1
      let b := st.2.1
      let c := st.2.2.1
      let d := st.2.2.2.1
      let e := st.2.2.2.2
      let f :=
        if i < 20 then (b &&& c) ||| ((b ^^^ 4294967295) &&& d)
        else if i < 40 then b ^^^ c ^^^ d
        else if i < 60 then (b &&& c) ||| (b &&& d) ||| (c &&& d)
        else b ^^^ c ^^^ d
      let k :=
        if i < 20 then 1518500249
        else if i < 40 then 1859775393
        else if i < 60 then 2400959708
        else 3395469782
      let temp := (rotl32 5 a + f + e + k + w.getD i 0) % 4294967296
      (temp, a, rotl32 30 b, c, d))
    h
  ((h.1 + st.1) % 4294967296, (h.2.1 + st.2.1) % 4294967296,
   (h.2.2.1 + st.2.2.1) % 4294967296, (h.2.2.2.1 + st.2.2.2.1) % 4294967296,
   (h.2.2.2.2 + st.2.2.2.2) % 4294967296)

def sha1Init : Nat × Nat × Nat × Nat × Nat :=
  (1732584193, 4023233417, 2562383102, 271733878, 3285377520)

def sha1Digest (msg : List Nat) : Nat × Nat × Nat × Nat × Nat :=
  (chunks64 (sha1Pad msg)).foldl sha1Compress sha1Init

/-- Lowercase hexadecimal SHA-1 digest of the UTF-8 encoding of a string
(what `crypto.createHash("sha1").update(s).digest("hex")` returns). -/
def sha1Hex (s : String) : String :=
  let d := sha1Digest (s.toUTF8.toList.map (fun b => b.toNat))
  String.mk (wordToHexChars d.1 ++ wordToHexChars d.2.1 ++ wordToHexChars d.2.2.1 ++
    wordToHexChars d.2.2.2.1 ++ wordToHexChars d.2.2.2.2)

/-! ### A small JSON model

The `pi-embedded-helpers` module (not part of this repository slice) decides
whether a piece of text is a raw provider error payload by parsing it as JSON
and inspecting its shape, and fingerprints such payloads in a way that is
insensitive to compact vs. pretty-printed formatting.  The model below gives
the JSON values, a total parser, and a canonical (compact) rendering used as
the formatting-insensitive fingerprint. -/

inductive JsonVal where
  | null : JsonVal
  | bool : Bool → JsonVal
  | num : String → JsonVal
  | str : String → JsonVal
  | arr : List JsonVal → JsonVal
  | obj : List (String × JsonVal) → JsonVal

def isJsonWs (c : Char) : Bool :=
  c = ' ' ∨ c = '\n' ∨ c = '\t' ∨ c = '\r'

def skipWs : List Char → List Char
  | c :: rest => if isJsonWs c then skipWs rest else c :: rest
  | [] => []

/-- Parse the remainder of a JSON string literal (the opening quote already
consumed), handling the standard escapes. -/
def parseJsonStringRest : List Char → Option (List Char × List Char)
  | '"' :: rest => some ([], rest)
  | '\\' :: c :: rest =>
    if c = 'u' then
      match rest with
      | h1 :: h2 :: h3 :: h4 :: rest' =>
        if h1.isDigit ∨ ('a' ≤ h1 ∧ h1 ≤ 'f') ∨ ('A' ≤ h1 ∧ h1 ≤ 'F') then
          match parseJsonStringRest rest' with
          | some (cs, r) =>
            let hv := fun (h : Char) =>
              if h.isDigit then h.toNat - '0'.toNat
              else if 'a' ≤ h ∧ h ≤ 'f' then h.toNat - 'a'.toNat + 10
              else h.toNat - 'A'.toNat + 10
            some (Char.ofNat (hv h1 * 4096 + hv h2 * 256 + hv h3 * 16 + hv h4) :: cs, r)
          | none => none
        else none
      | _ => none
    else
      let ec :=
        if c = 'n' then some '\n'
        else if c = 't' then some '\t'
        else if c = 'r' then some '\r'
        else if c = 'b' then some (Char.ofNat 8)
        else if c = 'f' then some (Char.ofNat 12)
        else if c = '"' ∨ c = '\\' ∨ c = '/' then some c
        else none
      match ec with
      | some e =>
        match parseJsonStringRest rest with
        | some (cs, r) => some (e :: cs, r)
        | none => none
      | none => none
  | c :: rest =>
    match parseJsonStringRest rest with
    | some (cs, r) => some (c :: cs, r)
    | none => none
  | [] => none

def isJsonNumChar (c : Char) : Bool :=
  c.isDigit ∨ c = '-' ∨ c = '+' ∨ c = '.' ∨ c = 'e' ∨ c = 'E'

def parseJsonNumber (cs : List Char) : Option (JsonVal × List Char) :=
  let lexeme := cs.takeWhile isJsonNumChar
  if lexeme.isEmpty then none
  else some (.num (String.mk lexeme), cs.drop lexeme.length)

mutual

def parseJsonValue : Nat → List Char → Option (JsonVal × List Char)
  | 0, _ => none
  | fuel + 1, cs =>
    match skipWs cs with
    | 'n' :: 'u' :: 'l' :: 'l' :: rest => some (.null, rest)
    | 't' :: 'r' :: 'u' :: 'e' :: rest => some (.bool true, rest)
    | 'f' :: 'a' :: 'l' :: 's' :: 'e' :: rest => some (.bool false, rest)
    | '"' :: rest =>
      match parseJsonStringRest rest with
      | some (cs', r) => some (.str (String.mk cs'), r)
      | none => none
    | '[' :: rest =>
      match parseJsonArrayItems fuel rest with
      | some (vs, r) => some (.arr vs, r)
      | none => none
    | '{' :: rest =>
      match parseJsonObjMembers fuel rest with
      | some (ms, r) => some (.obj ms, r)
      | none => none
    | other => parseJsonNumber other

def parseJsonArrayItems : Nat → List Char → Option (List JsonVal × List Char)
  | 0, _ => none
  | fuel + 1, cs =>
    match skipWs cs with
    | ']' :: rest => some ([], rest)
    | cs' =>
      match parseJsonValue fuel cs' with
      | some (v, r) =>
        match skipWs r with
        | ',' :: r2 =>
          match parseJsonArrayItems fuel r2 with
          | some (vs, r3) => some (v :: vs, r3)
          | none => none
        | ']' :: r2 => some ([v], r2)
        | _ => none
      | none => none

def parseJsonObjMembers : Nat → List Char → Option (List (String × JsonVal) × List Char)
  | 0, _ => none
  | fuel + 1, cs =>
    match skipWs cs with
    | '}' :: rest => some ([], rest)
    | '"' :: rest =>
      match parseJsonStringRest rest with
      | some (kcs, r) =>
        match skipWs r with
        | ':' :: r2 =>
          match parseJsonValue fuel r2 with
          | some (v, r3) =>
            match skipWs r3 with
            | ',' :: r4 =>
              match parseJsonObjMembers fuel r4 with
              | some (ms, r5) => some ((String.mk kcs, v) :: ms, r5)
              | none => none
            | '}' :: r4 => some ([(String.mk kcs, v)], r4)
            | _ => none
          | none => none
        | _ => none
      | none => none
    | _ => none

end

/-- Total JSON parser: succeeds only if the whole input (modulo surrounding
whitespace) is one JSON value. -/
def parseJson (s : String) : Option JsonVal :=
  match parseJsonValue (s.length + 1) s.data with
  | some (v, rest) => if (skipWs rest).isEmpty then some v else none
  | none => none

def renderJsonStringBody (cs : List Char) : List Char :=
  cs.foldr
    (fun c acc =>
      if c = '"' then '\\' :: '"' :: acc
      else if c = '\\' then '\\' :: '\\' :: acc
      else if c = '\n' then '\\' :: 'n' :: acc
      else if c = '\t' then '\\' :: 't' :: acc
      else if c = '\r' then '\\' :: 'r' :: acc
      else c :: acc)
    []

def renderJsonString (s : String) : String :=
  String.mk ('"' :: renderJsonStringBody s.data ++ ['"'])

mutual

/-- Canonical compact rendering of a JSON value; used as the
formatting-insensitive fingerprint of raw provider error payloads. -/
def renderJson : JsonVal → String
  | .null => "null"
  | .bool true => "true"
  | .bool false => "false"
  | .num s => s
  | .str s => renderJsonString s
  | .arr xs => "[" ++ renderJsonList xs ++ "]"
  | .obj ms => "\x7b" ++ renderJsonMembers ms ++ "\x7d"

def renderJsonList : List JsonVal → String
  | [] => ""
  | [x] => renderJson x
  | x :: xs => renderJson x ++ "," ++ renderJsonList xs

def renderJsonMembers : List (String × JsonVal) → String
  | [] => ""
  | [m] => renderJsonString m.1 ++ ":" ++ renderJson m.2
  | m :: ms => renderJsonString m.1 ++ ":" ++ renderJson m.2 ++ "," ++ renderJsonMembers ms

end

/-! ### Helpers modelled from the spec (`pi-embedded-helpers`, tokens, tool
formatting, reply directives, mutation classification)

These modules are imported by `payloads.ts` but are not part of this
repository slice; each definition is modelled from the specification's
description of its behavior. -/

/-- Modelled from the spec: the normalized comparison used for suppression and
dedup is whitespace/case insensitive — the text is lowercased, whitespace runs
are collapsed to single spaces, and surrounding whitespace is removed
(`normalizeTextForComparison` in `pi-embedded-helpers`). -/
def normalizeTextForComparison (s : String) : String :=
  String.intercalate " "
    (((splitByPred Char.isWhitespace (jsToLower s).data).map String.mk).filter
      (fun t => !t.isEmpty))

/-- Modelled from the spec: a raw provider error payload is a JSON object with
`type`, `error` (and `request_id`-like) fields (`isRawApiErrorPayload` shape
check in `pi-embedded-helpers`). -/
def isRawApiErrorShape : JsonVal → Bool
  | .obj ms => (ms.any (fun m => m.1 = "type")) && (ms.any (fun m => m.1 = "error"))
  | _ => false

/-- Modelled from the spec: the normalized fingerprint of a raw provider error
payload — a hash of the structurally meaningful fields that ignores
whitespace/formatting differences between compact and pretty-printed
renderings.  Modelled as the canonical compact rendering of the parsed value;
`none` when the text does not parse as an error-shaped JSON object
(`getApiErrorPayloadFingerprint` in `pi-embedded-helpers`). -/
def getApiErrorPayloadFingerprint (s : String) : Option String :=
  match parseJson s with
  | some j => if isRawApiErrorShape j then some (renderJson j) else none
  | none => none

/-- Modelled from the spec: whether the text parses as a JSON object shaped
like a raw provider error payload (`isRawApiErrorPayload` in
`pi-embedded-helpers`). -/
def isRawApiErrorPayload (s : String) : Bool :=
  (getApiErrorPayloadFingerprint s).isSome

/-- Modelled from the spec: the fixed generic billing-error sentence
(`BILLING_ERROR_USER_MESSAGE` in `pi-embedded-helpers`). -/
def BILLING_ERROR_USER_MESSAGE : String :=
  "The AI provider reported a billing or credit issue. Please check your plan and billing details."

/-- Modelled from the spec: the provider-context-aware billing error message
(`formatBillingErrorMessage` in `pi-embedded-helpers`). -/
def formatBillingErrorMessage (provider : Option String) : String :=
  match provider with
  | some p =>
    if p.isEmpty then BILLING_ERROR_USER_MESSAGE
    else "The AI provider (" ++ p ++ ") reported a billing or credit issue. Please check your plan and billing details."
  | none => BILLING_ERROR_USER_MESSAGE

/-- Modelled from the spec: classification of a raw provider error message as
a billing error (keyword heuristics over the raw message). -/
def isBillingErrorMessage (raw : String) : Bool :=
  strContains (jsToLower raw) "billing" || strContains (jsToLower raw) "credit" ||
    strContains (jsToLower raw) "quota"

/-- A content block of an assistant message; only the discriminator and the
text payloads are read by this core. -/
inductive ContentBlock where
  | text (text : String)
  | toolCall (id name : String)
  | thinking (thinking : String)

/-- The slice of an assistant-turn message read by this core: stop reason,
error message and content blocks. -/
structure AssistantMessage where
  stopReason : String
  errorMessage : Option String := none
  content : List ContentBlock := []

/-- Modelled from the spec: the user-facing error message computed for an
errored turn — billing-aware, with provider context when available, an
overloaded-specific variant, and a generic fallback; nothing for a turn that
did not error (`formatAssistantErrorText` in `pi-embedded-helpers`). -/
def formatAssistantErrorText (m : AssistantMessage) (provider : Option String) :
    Option String :=
  if m.stopReason ≠ "error" then none
  else
    let raw := jsTrim (m.errorMessage.getD "")
    if isBillingErrorMessage raw then some (formatBillingErrorMessage provider)
    else if strContains (jsToLower raw) "overloaded" then
      some "The AI service is temporarily overloaded. Please try again in a moment."
    else some "The AI service returned an error. Please try again."

/-- Modelled from the spec: a UI-reformatted rendering of the raw provider
error message (`formatRawAssistantErrorForUi` in `pi-embedded-helpers`). -/
def formatRawAssistantErrorForUi (raw : String) : String :=
  "AI service error: " ++ raw

/-- Modelled from the spec: concatenation of the text content blocks of an
assistant message (`extractAssistantText` in `pi-embedded-utils`). -/
def extractAssistantText (m : AssistantMessage) : String :=
  String.intercalate "\n"
    ((m.content.filterMap (fun b => match b with | .text t => some t | _ => none)).filter
      (fun t => !t.isEmpty))

/-- Modelled from the spec: concatenation of the thinking content blocks of an
assistant message (`extractAssistantThinking` in `pi-embedded-utils`). -/
def extractAssistantThinking (m : AssistantMessage) : String :=
  String.intercalate "\n"
    ((m.content.filterMap (fun b => match b with | .thinking t => some t | _ => none)).filter
      (fun t => !t.isEmpty))

/-- Modelled from the spec: formatting of a reasoning trace for display;
empty input produces no message (`formatReasoningMessage` in
`pi-embedded-utils`). -/
def formatReasoningMessage (thinking : String) : String :=
  if thinking.isEmpty then "" else "🧠 " ++ thinking

/-- Modelled from the spec: the canonical silent-reply sentinel token
(`SILENT_REPLY_TOKEN` in `auto-reply/tokens`). -/
def SILENT_REPLY_TOKEN : String := "NO_REPLY"

/-- Modelled from the spec: whether a payload text equals the canonical
silent-reply sentinel token (`isSilentReplyText` in `auto-reply/tokens`). -/
def isSilentReplyText (text token : String) : Bool :=
  jsTrim text = token

/-- The result of reply-directive parsing: cleaned text plus extracted media
URLs, audio flag and reply-target overrides. -/
structure ReplyDirectives where
  text : String
  mediaUrls : Option (List String) := none
  audioAsVoice : Option Bool := none
  replyToId : Option String := none
  replyToTag : Option Bool := none
  replyToCurrent : Option Bool := none

/-- Modelled from the spec: `parseReplyDirectives` strips reply directives
(media URLs, audio flag, reply-target overrides) embedded in directive syntax
from the text.  The directive syntax lives outside this repository slice; the
model treats every text as directive-free, returning it unchanged with no
media and no flags. -/
def parseReplyDirectives (s : String) : ReplyDirectives :=
  { text := s }

def capitalizeWord (s : String) : String :=
  match s.data with
  | [] => ""
  | c :: rest => String.mk (c.toUpper :: rest)

/-- Modelled from the spec: the formatted inline rendering of a tool
invocation — a tool emoji, the capitalized tool name, and any meta entries
(`formatToolAggregate` in `auto-reply/tool-meta`; the repository's tests fix
"exec" ↦ "🛠️ Exec"). -/
def formatToolAggregate (toolName : String) (metas : List String) (_markdown : Bool) : String :=
  "🛠️ " ++ capitalizeWord toolName ++
    (if metas.isEmpty then "" else " " ++ String.intercalate ", " metas)

/-- Modelled from the spec: the known mutating-tool-name set used to infer
mutation when no explicit flag is given (`isLikelyMutatingToolName` in
`tool-mutation`; the repository's tests fix "write" and "message" as mutating,
"browser" and "session_status" as not). -/
def MUTATING_TOOL_NAMES : List String :=
  ["write", "edit", "create", "delete", "update", "move", "copy", "remove",
   "send", "message", "post", "set"]

def isLikelyMutatingToolName (name : String) : Bool :=
  MUTATING_TOOL_NAMES.any (fun m => jsToLower (jsTrim name) = m)

/-! ### Configuration model (`config.ts` slice read by this core) -/

structure ToolWarningsConfig where
  enabled : Option Bool := none
  target : Option String := none
  «to» : Option String := none
  execOnly : Option Bool := none
  fallbackToUserChat : Option Bool := none
  dedupeWindowMs : Option Int := none

structure MessagesConfig where
  suppressToolErrors : Option Bool := none
  toolWarnings : Option ToolWarningsConfig := none

structure HeartbeatConfig where
  target : Option String := none
  «to» : Option String := none

structure AgentDefaultsConfig where
  heartbeat : Option HeartbeatConfig := none

structure AgentsConfig where
  defaults : Option AgentDefaultsConfig := none

structure OpenClawConfig where
  messages : Option MessagesConfig := none
  agents : Option AgentsConfig := none

/-! ### The payload builder (`payloads.ts`) -/

structure ToolMetaEntry where
  toolName : String
  meta : Option String := none

structure LastToolError where
  toolName : String
  meta : Option String := none
  error : Option String := none
  mutatingAction : Option Bool := none
  actionFingerprint : Option String := none

/-- A warning event produced by the payload builder and consumed by the
warning router (`EmbeddedPiWarningEvent`). -/
structure EmbeddedPiWarningEvent where
  kind : String := "tool_error"
  text : String
  toolName : String
  toolSummary : String
  errorText : Option String := none
  isMutating : Bool
  fingerprint : String
  ts : Int
deriving DecidableEq

def RECOVERABLE_TOOL_ERROR_KEYWORDS : List String :=
  ["required", "missing", "invalid", "must be", "must have", "needs", "requires"]

def isRecoverableToolError (error : Option String) : Bool :=
  let errorLower := jsToLower (error.getD "")
  RECOVERABLE_TOOL_ERROR_KEYWORDS.any (fun keyword => strContains errorLower keyword)

/-- Whether a tool name trims/lowercases to "exec" or "bash". -/
def isExecLikeToolName (toolName : String) : Bool :=
  jsToLower (jsTrim toolName) = "exec" || jsToLower (jsTrim toolName) = "bash"

structure WarningEmitDecision where
  shouldEmit : Bool
  isMutating : Bool
deriving DecidableEq

/-- Decide whether a tool error should become a structured warning event
(`shouldEmitToolWarningEvent`): mutating and exec/bash tools always emit;
otherwise `suppressToolErrors` silences, and emission requires the absence of
another user-facing reply and a non-recoverable error text. -/
def shouldEmitToolWarningEvent (lastToolError : LastToolError)
    (hasUserFacingReply : Bool) (suppressToolErrors : Bool) : WarningEmitDecision :=
  let isExecLike := isExecLikeToolName lastToolError.toolName
  let isMutating := lastToolError.mutatingAction.getD
    (isLikelyMutatingToolName lastToolError.toolName)
  if isMutating || isExecLike then { shouldEmit := true, isMutating }
  else if suppressToolErrors then { shouldEmit := false, isMutating }
  else
    { shouldEmit := !hasUserFacingReply && !isRecoverableToolError lastToolError.error,
      isMutating }

/-- Build a stable warning fingerprint (`buildWarningFingerprint`): SHA-1 of
`actionFingerprint` when present, else of the tool/meta/error tuple. -/
def buildWarningFingerprint (lastToolError : LastToolError) : String :=
  sha1Hex (lastToolError.actionFingerprint.getD
    (lastToolError.toolName ++ "|" ++ lastToolError.meta.getD "" ++ "|" ++
      lastToolError.error.getD ""))

/-- The caller-supplied inputs of `buildEmbeddedRunPayloads`.
`suppressToolErrorWarnings` is accepted by the source but never read. -/
structure BuildParams where
  assistantTexts : List String
  toolMetas : List ToolMetaEntry
  lastAssistant : Option AssistantMessage := none
  lastToolError : Option LastToolError := none
  config : Option OpenClawConfig := none
  sessionKey : String
  provider : Option String := none
  model : Option String := none
  verboseLevel : Option String := none
  reasoningLevel : Option String := none
  toolResultFormat : Option String := none
  suppressToolErrorWarnings : Option Bool := none
  inlineToolResultsAllowed : Bool

/-- An accumulated reply item before post-processing. -/
structure ReplyItem where
  text : String
  media : Option (List String) := none
  isError : Option Bool := none
  audioAsVoice : Option Bool := none
  replyToId : Option String := none
  replyToTag : Option Bool := none
  replyToCurrent : Option Bool := none
deriving DecidableEq

/-- A final reply payload (`payloads` entry of the build result). -/
structure ReplyPayloadOut where
  text : Option String := none
  mediaUrl : Option String := none
  mediaUrls : Option (List String) := none
  replyToId : Option String := none
  isError : Option Bool := none
  audioAsVoice : Bool := false
  replyToTag : Option Bool := none
  replyToCurrent : Option Bool := none
deriving DecidableEq

def genericErrorText : String := "The AI service returned an error. Please try again."

/-- The raw-error comparison context computed at the top of
`buildEmbeddedRunPayloads` (the local constants of `payloads.ts` lines
128-155). -/
structure ErrorSuppressCtx where
  lastAssistantErrored : Bool
  errorText : Option String
  rawErrorMessage : Option String
  rawErrorFingerprint : Option String
  formattedRawErrorMessage : Option String
  normalizedFormattedRawErrorMessage : Option String
  normalizedRawErrorText : Option String
  normalizedErrorText : Option String

def mkErrorSuppressCtx (params : BuildParams) : ErrorSuppressCtx :=
  let lastAssistantErrored := (params.lastAssistant.map (·.stopReason)) = some "error"
  let errorText := params.lastAssistant.bind (fun m => formatAssistantErrorText m params.provider)
  let rawErrorMessage :=
    if lastAssistantErrored then
      match params.lastAssistant.bind (·.errorMessage) with
      | some em => if (jsTrim em).isEmpty then none else some (jsTrim em)
      | none => none
    else none
  let rawErrorFingerprint := rawErrorMessage.bind getApiErrorPayloadFingerprint
  let formattedRawErrorMessage := rawErrorMessage.map formatRawAssistantErrorForUi
  { lastAssistantErrored
    errorText
    rawErrorMessage
    rawErrorFingerprint
    formattedRawErrorMessage
    normalizedFormattedRawErrorMessage := formattedRawErrorMessage.map normalizeTextForComparison
    normalizedRawErrorText := rawErrorMessage.map normalizeTextForComparison
    normalizedErrorText := errorText.map normalizeTextForComparison }

/-- The suppression rule for candidate answer texts that duplicate the
provider error (`shouldSuppressRawErrorText` closure, `payloads.ts` lines
197-246).  The source's sequence of early `return true`s is rendered as a
boolean disjunction. -/
def shouldSuppressRawErrorText (ctx : ErrorSuppressCtx) (text : String) : Bool :=
  if !ctx.lastAssistantErrored then false
  else
    let trimmed := jsTrim text
    if trimmed.isEmpty then false
    else
      let normalized := normalizeTextForComparison trimmed
      (truthy ctx.errorText &&
        ((!normalized.isEmpty && truthy ctx.normalizedErrorText &&
            some normalized = ctx.normalizedErrorText) ||
          trimmed = genericErrorText ||
          (!normalized.isEmpty && !(normalizeTextForComparison BILLING_ERROR_USER_MESSAGE).isEmpty &&
            normalized = normalizeTextForComparison BILLING_ERROR_USER_MESSAGE))) ||
      (truthy ctx.rawErrorMessage && some trimmed = ctx.rawErrorMessage) ||
      (truthy ctx.formattedRawErrorMessage && some trimmed = ctx.formattedRawErrorMessage) ||
      (truthy ctx.normalizedRawErrorText && !normalized.isEmpty &&
        some normalized = ctx.normalizedRawErrorText) ||
      (truthy ctx.normalizedFormattedRawErrorMessage && !normalized.isEmpty &&
        some normalized = ctx.normalizedFormattedRawErrorMessage) ||
      (truthy ctx.rawErrorFingerprint &&
        (match getApiErrorPayloadFingerprint trimmed with
         | some fp => !fp.isEmpty && some fp = ctx.rawErrorFingerprint
         | none => false)) ||
      isRawApiErrorPayload trimmed

/-- The candidate answer texts: explicit `assistantTexts`, or a single
fallback extracted from the last assistant message. -/
def answerCandidates (params : BuildParams) : List String :=
  let fallbackAnswerText :=
    match params.lastAssistant with
    | some m => extractAssistantText m
    | none => ""
  if params.assistantTexts.length ≠ 0 then params.assistantTexts
  else if !fallbackAnswerText.isEmpty then [fallbackAnswerText] else []

/-- The candidate answer texts surviving raw-error suppression. -/
def answerTextsOf (params : BuildParams) : List String :=
  (answerCandidates params).filter (fun t => !shouldSuppressRawErrorText (mkErrorSuppressCtx params) t)

def replyItemOfDirectives (d : ReplyDirectives) : ReplyItem :=
  { text := d.text, media := d.mediaUrls, audioAsVoice := d.audioAsVoice,
    replyToId := d.replyToId, replyToTag := d.replyToTag, replyToCurrent := d.replyToCurrent }

def useMarkdownOf (params : BuildParams) : Bool :=
  params.toolResultFormat = some "markdown"

/-- The error payload of step 1 (`payloads.ts` lines 156-158). -/
def errorItemsOf (params : BuildParams) : List ReplyItem :=
  match (mkErrorSuppressCtx params).errorText with
  | some et => if et.isEmpty then [] else [{ text := et, isError := some true }]
  | none => []

/-- The inline tool-result payloads of step 2 (`payloads.ts` lines 160-186). -/
def inlineItemsOf (params : BuildParams) : List ReplyItem :=
  if params.inlineToolResultsAllowed &&
      params.verboseLevel ≠ some "off" && params.toolMetas.length > 0 then
    params.toolMetas.filterMap (fun e =>
      let agg := formatToolAggregate e.toolName
        (match e.meta with
         | some m => if m.isEmpty then [] else [m]
         | none => []) (useMarkdownOf params)
      let d := parseReplyDirectives agg
      if d.text.isEmpty then none else some (replyItemOfDirectives d))
  else []

/-- The reasoning payload of step 3 (`payloads.ts` lines 188-194). -/
def reasoningItemsOf (params : BuildParams) : List ReplyItem :=
  let reasoningText :=
    match params.lastAssistant with
    | some m =>
      if params.reasoningLevel = some "on" then formatReasoningMessage (extractAssistantThinking m)
      else ""
    | none => ""
  if reasoningText.isEmpty then [] else [{ text := reasoningText }]

/-- The answer-text payloads of step 4 (`payloads.ts` lines 255-275). -/
def answerItemsOf (params : BuildParams) : List ReplyItem :=
  (answerTextsOf params).filterMap (fun t =>
    let d := parseReplyDirectives t
    if d.text.isEmpty && (d.mediaUrls.getD []).isEmpty && !(d.audioAsVoice.getD false) then none
    else some (replyItemOfDirectives d))

/-- The accumulated reply items of one turn, in emission order: error text,
inline tool results, reasoning, answer texts (`payloads.ts` lines 117-275). -/
def buildReplyItems (params : BuildParams) : List ReplyItem :=
  errorItemsOf params ++ inlineItemsOf params ++ reasoningItemsOf params ++ answerItemsOf params

/-- The formatted tool summary of a failing tool (`formatToolAggregate` call
of `payloads.ts` lines 295-299). -/
def toolSummaryOf (lastToolError : LastToolError) (useMarkdown : Bool) : String :=
  formatToolAggregate lastToolError.toolName
    (match lastToolError.meta with
     | some m => if m.isEmpty then [] else [m]
     | none => []) useMarkdown

/-- The text a tool-error warning is rendered with. -/
def warningTextOf (lastToolError : LastToolError) (useMarkdown : Bool) : String :=
  let errorSuffix :=
    match lastToolError.error with
    | some e => if e.isEmpty then "" else ": " ++ e
    | none => ""
  "⚠️ " ++ toolSummaryOf lastToolError useMarkdown ++ " failed" ++ errorSuffix

/-- Whether the warning text duplicates an already-accumulated reply item
under the normalized comparison (`payloads.ts` lines 302-311). -/
def isDuplicateWarningText (replyItems : List ReplyItem) (warningText : String) : Bool :=
  let normalizedWarning := normalizeTextForComparison warningText
  if normalizedWarning.isEmpty then false
  else
    replyItems.any (fun item =>
      if item.text.isEmpty then false
      else
        let normalizedExisting := normalizeTextForComparison item.text
        normalizedExisting.length > 0 && normalizedExisting = normalizedWarning)

/-- The warning events of one turn (`payloads.ts` lines 277-325). -/
def buildWarningItems (params : BuildParams) (now : Int) : List EmbeddedPiWarningEvent :=
  match params.lastToolError with
  | none => []
  | some lte =>
    let useMarkdown := useMarkdownOf params
    let replyItems := buildReplyItems params
    let lastAssistantHasToolCalls :=
      match params.lastAssistant with
      | some m => m.content.any (fun b => match b with | .toolCall _ _ => true | _ => false)
      | none => false
    let lastAssistantWasToolUse := (params.lastAssistant.map (·.stopReason)) = some "toolUse"
    let hasUserFacingReply :=
      replyItems.length > 0 && !lastAssistantHasToolCalls && !lastAssistantWasToolUse
    let suppressToolErrors :=
      ((params.config.bind (·.messages)).bind (·.suppressToolErrors)).getD false
    let warningState := shouldEmitToolWarningEvent lte hasUserFacingReply suppressToolErrors
    if warningState.shouldEmit then
      let warningText := warningTextOf lte useMarkdown
      if isDuplicateWarningText replyItems warningText then []
      else
        [{ kind := "tool_error", text := warningText, toolName := lte.toolName,
           toolSummary := toolSummaryOf lte useMarkdown, errorText := lte.error,
           isMutating := warningState.isMutating,
           fingerprint := buildWarningFingerprint lte, ts := now }]
    else []

/-- Post-processing of reply items into payloads: turn-wide audio flag
propagation, trimming, and dropping of empty or silent payloads
(`payloads.ts` lines 327-347). -/
def postProcessReplyItems (replyItems : List ReplyItem) : List ReplyPayloadOut :=
  let hasAudioAsVoiceTag := replyItems.any (fun item => item.audioAsVoice.getD false)
  (replyItems.map (fun item =>
    ({ text := if (jsTrim item.text).isEmpty then none else some (jsTrim item.text),
       mediaUrls :=
         match item.media with
         | some l => if l.length > 0 then some l else none
         | none => none,
       mediaUrl := item.media.bind (·.head?),
       isError := item.isError,
       replyToId := item.replyToId,
       replyToTag := item.replyToTag,
       replyToCurrent := item.replyToCurrent,
       audioAsVoice := item.audioAsVoice.getD false ||
         (hasAudioAsVoiceTag && (item.media.getD []).length > 0) } : ReplyPayloadOut))).filter
    (fun p =>
      if p.text.isNone && p.mediaUrl.isNone && (p.mediaUrls.getD []).length = 0 then false
      else if (match p.text with
               | some t => isSilentReplyText t SILENT_REPLY_TOKEN
               | none => false) then false
      else true)

structure BuildResult where
  payloads : List ReplyPayloadOut
  warnings : List EmbeddedPiWarningEvent
deriving DecidableEq

/-- The turn-outcome payload builder (`buildEmbeddedRunPayloads`): classifies
the turn outcome into user-facing reply payloads plus warning events.  The
source's single `Date.now()` read is passed in as `now`. -/
def buildEmbeddedRunPayloads (params : BuildParams) (now : Int) : BuildResult :=
  { payloads := postProcessReplyItems (buildReplyItems params),
    warnings := buildWarningItems params now }

/-! ### The warning routing & dedup engine (`warning-routing.ts`)

The process-wide `warningFingerprintSeenAt` `Map` is modelled as an
insertion-ordered association list (`FpCache`) threaded explicitly; each
`Date.now()` read during one router call is modelled by the call's `now`;
the external `routeReply` collaborator is modelled by a `deliver` oracle
giving the success of the k-th delivery attempt of the call, and the
attempts themselves are returned so theorems can observe them. -/

def DEFAULT_WARNING_DEDUPE_WINDOW_MS : Int := 10 * 60 * 1000

def WARNING_FINGERPRINT_CACHE_LIMIT : Nat := 1024

/-- The fingerprint → last-emitted-timestamp map, in insertion order. -/
abbrev FpCache := List (String × Int)

/-- JavaScript `Map.get`. -/
def mapGet : FpCache → String → Option Int
  | [], _ => none
  | e :: rest, k => if e.1 = k then some e.2 else mapGet rest k

/-- JavaScript `Map.set`: updates in place (keeping insertion position), else
appends. -/
def mapSet : FpCache → String → Int → FpCache
  | [], k, v => [(k, v)]
  | e :: rest, k, v => if e.1 = k then (k, v) :: rest else e :: mapSet rest k v

/-- JavaScript `Map.delete`: removes the entry with that key (a `Map` holds
at most one). -/
def mapDelete : FpCache → String → FpCache
  | [], _ => []
  | e :: rest, k => if e.1 = k then rest else e :: mapDelete rest k

/-- The second pruning phase: sweep entries older than six default dedupe
windows, in insertion order, stopping once back under the capacity. -/
def sweepOldEntries (now : Int) : List (String × Int) → FpCache → FpCache
  | [], m => m
  | (k, ts) :: rest, m =>
    let m' := if now - ts > DEFAULT_WARNING_DEDUPE_WINDOW_MS * 6 then mapDelete m k else m
    if m'.length ≤ WARNING_FINGERPRINT_CACHE_LIMIT then m'
    else sweepOldEntries now rest m'

/-- Prune the fingerprint cache once it exceeds its capacity: evict the
oldest-timestamp entries first, then sweep stale entries if still over
capacity (`pruneWarningFingerprintCache`). -/
def pruneWarningFingerprintCache (now : Int) (m : FpCache) : FpCache :=
  if m.length ≤ WARNING_FINGERPRINT_CACHE_LIMIT then m
  else
    let sorted := List.insertionSort (fun a b : String × Int => a.2 ≤ b.2) m
    let excess := m.length - WARNING_FINGERPRINT_CACHE_LIMIT
    let m1 := (sorted.take excess).foldl
      (fun acc e => if !e.1.isEmpty then mapDelete acc e.1 else acc) m
    if m1.length > WARNING_FINGERPRINT_CACHE_LIMIT then sweepOldEntries now m1 m1
    else m1

/-- The fingerprint-based cross-call rate limiter
(`shouldEmitByFingerprintRateLimit`): skip if the fingerprint was last
emitted less than `windowMs` ago, else record the new timestamp and prune. -/
def shouldEmitByFingerprintRateLimit (fingerprint : String) (windowMs : Int)
    (now : Int) (cache : FpCache) : Bool × FpCache :=
  match mapGet cache fingerprint with
  | some lastSeen =>
    if now - lastSeen < windowMs then (false, cache)
    else (true, pruneWarningFingerprintCache now (mapSet cache fingerprint now))
  | none => (true, pruneWarningFingerprintCache now (mapSet cache fingerprint now))

/-- Modelled from the spec: the channel identifiers the delivery collaborator
can route to (`isRoutableChannel` in `route-reply.ts`, outside this
repository slice). -/
def ROUTABLE_CHANNELS : List String :=
  ["telegram", "whatsapp", "discord", "slack", "signal"]

def isRoutableChannel (channel : String) : Bool :=
  ROUTABLE_CHANNELS.any (fun c => c = channel)

structure WarningRoute where
  channel : String
  «to» : String
deriving DecidableEq

structure WarningRoutingPolicy where
  enabled : Bool
  route : Option WarningRoute
  execOnly : Bool
  fallbackToUserChat : Bool
  dedupeWindowMs : Int
  suppressToolErrors : Bool
deriving DecidableEq

/-- Resolve the dedicated warning route from the tool-warnings target,
falling back to the heartbeat target (`resolveWarningRoute`). -/
def resolveWarningRoute (cfg : OpenClawConfig) : Option WarningRoute :=
  let targetRaw := (((cfg.messages.bind (·.toolWarnings)).bind (·.target)).or
    (((cfg.agents.bind (·.defaults)).bind (·.heartbeat)).bind (·.target)))
  let toRaw := (((cfg.messages.bind (·.toolWarnings)).bind (·.«to»)).or
    (((cfg.agents.bind (·.defaults)).bind (·.heartbeat)).bind (·.«to»)))
  match targetRaw, toRaw with
  | some targetS, some toS =>
    let channel := jsToLower (jsTrim targetS)
    let toV := jsTrim toS
    if !isRoutableChannel channel || toV.isEmpty then none
    else some { channel, «to» := toV }
  | _, _ => none

/-- Parse a boolean-ish env var (`parseOptionalBoolEnv`): `1/true/yes/on` and
`0/false/no/off` after trimming and lowercasing; anything else is unset.  The
argument is the value of the environment variable
(`OPENCLAW_TOOL_WARNINGS_ENABLED`), `none` when unset. -/
def parseOptionalBoolEnv (value : Option String) : Option Bool :=
  let raw := jsToLower (jsTrim (value.getD ""))
  if raw.isEmpty then none
  else if ["1", "true", "yes", "on"].contains raw then some true
  else if ["0", "false", "no", "off"].contains raw then some false
  else none

/-- Resolve the routing policy from config and environment
(`resolveWarningPolicy`); precedence for `enabled` is the env override, then
`messages.toolWarnings.enabled`, then `false`. -/
def resolveWarningPolicy (cfg : OpenClawConfig) (envEnabled : Option String) :
    WarningRoutingPolicy :=
  let dedupeWindowMs := max 1000
    (((cfg.messages.bind (·.toolWarnings)).bind (·.dedupeWindowMs)).getD
      DEFAULT_WARNING_DEDUPE_WINDOW_MS)
  let envE := parseOptionalBoolEnv envEnabled
  { enabled := envE.getD (((cfg.messages.bind (·.toolWarnings)).bind (·.enabled)).getD false)
    route := resolveWarningRoute cfg
    execOnly := ((cfg.messages.bind (·.toolWarnings)).bind (·.execOnly)).getD true
    fallbackToUserChat :=
      ((cfg.messages.bind (·.toolWarnings)).bind (·.fallbackToUserChat)).getD true
    dedupeWindowMs
    suppressToolErrors := (cfg.messages.bind (·.suppressToolErrors)).getD false }

def isExecLikeWarning (warning : EmbeddedPiWarningEvent) : Bool :=
  isExecLikeToolName warning.toolName

/-- Eligibility for the dedicated warnings route
(`shouldRouteWarningToWarningsChannel`): a route is configured and either
`execOnly` is off or the warning is exec-like. -/
def shouldRouteWarningToWarningsChannel (warning : EmbeddedPiWarningEvent)
    (policy : WarningRoutingPolicy) : Bool :=
  match policy.route with
  | none => false
  | some _ => if !policy.execOnly then true else isExecLikeWarning warning

/-- The user-chat fallback decision (`shouldRouteWarningToUserChat`). -/
def shouldRouteWarningToUserChat (policy : WarningRoutingPolicy)
    (warning : EmbeddedPiWarningEvent) (warningRouteAttempted : Bool)
    (warningRouteSucceeded : Bool) : Bool :=
  if policy.suppressToolErrors then false
  else if !shouldRouteWarningToWarningsChannel warning policy then true
  else if !warningRouteAttempted then policy.fallbackToUserChat
  else if warningRouteSucceeded then false
  else policy.fallbackToUserChat

/-- A `{text, isError: true}` payload pushed to the user chat. -/
structure WarnPayload where
  text : String
  isError : Bool := true
deriving DecidableEq

/-- One delivery attempt handed to the `routeReply` collaborator. -/
structure RoutedDelivery where
  channel : String
  «to» : String
  text : String
  sessionKey : Option String
deriving DecidableEq

structure ProcessResult where
  userPayloads : List WarnPayload
  cache : FpCache
  deliveries : List RoutedDelivery

/-- Accumulator of the routed-path loop of `processWarningEvents`. -/
structure RoutedAcc where
  userPayloads : List WarnPayload
  seen : List String
  cache : FpCache
  deliveries : List RoutedDelivery

/-- One iteration of the routed-path loop of `processWarningEvents`
(lines 188-234): skip empty texts, dedupe by `(fingerprint, text)` within the
call, apply the cross-call rate limiter, attempt dedicated-route delivery
when eligible, then apply the user-chat fallback decision. -/
def processOneWarning (policy : WarningRoutingPolicy) (sessionKey : Option String)
    (now : Int) (deliver : Nat → Bool) (acc : RoutedAcc)
    (warning : EmbeddedPiWarningEvent) : RoutedAcc :=
  let text := jsTrim warning.text
  if text.isEmpty then acc
  else
    let warningKey := warning.fingerprint ++ ":" ++ text
    if acc.seen.contains warningKey then acc
    else
      let seen := acc.seen ++ [warningKey]
      let rate := shouldEmitByFingerprintRateLimit warning.fingerprint policy.dedupeWindowMs
        now acc.cache
      if !rate.1 then { acc with seen, cache := rate.2 }
      else
        let shouldRoute := shouldRouteWarningToWarningsChannel warning policy
        let attempt :=
          match policy.route with
          | some route =>
            if shouldRoute then
              some ({ channel := route.channel, «to» := route.«to», text,
                      sessionKey } : RoutedDelivery)
            else none
          | none => none
        let routeAttempted := attempt.isSome
        let routed := routeAttempted && deliver acc.deliveries.length
        let deliveries :=
          match attempt with
          | some a => acc.deliveries ++ [a]
          | none => acc.deliveries
        let userPayloads :=
          if shouldRouteWarningToUserChat policy warning routeAttempted routed then
            acc.userPayloads ++ [{ text := text, isError := true }]
          else acc.userPayloads
        { userPayloads, seen, cache := rate.2, deliveries }

/-- The warning router (`processWarningEvents`): legacy user-chat behavior
when routing is disabled, else the routed path per warning in input order. -/
def processWarningEvents (warnings : List EmbeddedPiWarningEvent)
    (cfg : OpenClawConfig) (envEnabled : Option String) (sessionKey : Option String)
    (now : Int) (deliver : Nat → Bool) (cache0 : FpCache) : ProcessResult :=
  let policy := resolveWarningPolicy cfg envEnabled
  if !policy.enabled then
    if policy.suppressToolErrors then { userPayloads := [], cache := cache0, deliveries := [] }
    else
      let acc := warnings.foldl
        (fun (acc : List WarnPayload × List String) w =>
          let text := jsTrim w.text
          if text.isEmpty || acc.2.contains text then acc
          else (acc.1 ++ [{ text := text, isError := true }], acc.2 ++ [text]))
        ([], [])
      { userPayloads := acc.1, cache := cache0, deliveries := [] }
  else
    let acc := warnings.foldl (processOneWarning policy sessionKey now deliver)
      { userPayloads := [], seen := [], cache := cache0, deliveries := [] }
    { userPayloads := acc.userPayloads, cache := acc.cache, deliveries := acc.deliveries }

/-! ### Supporting lemmas -/

theorem hexChar_mem_hexDigits (n : Nat) : hexChar n ∈ hexDigitsList := by
  unfold hexChar
  have h : n % 16 < hexDigitsList.length := by
    rw [show hexDigitsList.length = 16 from rfl]
    exact Nat.mod_lt n (by decide)
  rw [List.getD_eq_getElem hexDigitsList '0' h]
  exact List.getElem_mem h

theorem sha1Hex_length (s : String) : (sha1Hex s).length = 40 := by
  unfold sha1Hex
  simp [String.length, wordToHexChars]

theorem wordToHexChars_mem (w : Nat) : ∀ c ∈ wordToHexChars w, c ∈ hexDigitsList := by
  intro c hc
  simp only [wordToHexChars, List.mem_cons, List.not_mem_nil, or_false] at hc
  rcases hc with rfl | rfl | rfl | rfl | rfl | rfl | rfl | rfl <;> exact hexChar_mem_hexDigits _

theorem sha1Hex_chars (s : String) : ∀ c ∈ (sha1Hex s).data, c ∈ hexDigitsList := by
  unfold sha1Hex
  intro c hc
  simp only [show ∀ l : List Char, (String.mk l).data = l from fun _ => rfl,
    List.mem_append] at hc
  rcases hc with ((((h | h) | h) | h) | h) <;> exact wordToHexChars_mem _ c h

/-! ### Claim theorems -/

/-- C7: `buildWarningFingerprint` is a pure deterministic function of the
`(toolName, meta, error, actionFingerprint)` tuple: it hashes
`actionFingerprint` when present, otherwise the string
`toolName|meta|error` (absent meta/error as empty strings), the result is
40 lowercase hexadecimal characters, and two inputs agreeing on that tuple
(whatever their `mutatingAction`) yield the same fingerprint. -/
theorem buildWarningFingerprint_deterministic_40_hex (e : LastToolError) :
    buildWarningFingerprint e =
        sha1Hex (e.actionFingerprint.getD
          (e.toolName ++ "|" ++ e.meta.getD "" ++ "|" ++ e.error.getD "")) ∧
      (buildWarningFingerprint e).length = 40 ∧
      (∀ c ∈ (buildWarningFingerprint e).data, c ∈ hexDigitsList) ∧
      ∀ e₂ : LastToolError, e₂.toolName = e.toolName → e₂.meta = e.meta →
        e₂.error = e.error → e₂.actionFingerprint = e.actionFingerprint →
        buildWarningFingerprint e₂ = buildWarningFingerprint e := by
  refine ⟨rfl, sha1Hex_length _, sha1Hex_chars _, ?_⟩
  intro e₂ h1 h2 h3 h4
  unfold buildWarningFingerprint
  rw [h1, h2, h3, h4]

/-- Witness for C7: two tool errors agreeing on the fingerprint tuple but
differing in `mutatingAction` hash identically. -/
theorem buildWarningFingerprint_deterministic_40_hex_witness :
    buildWarningFingerprint
        { toolName := "exec", error := some "exit code 1", mutatingAction := some false } =
      buildWarningFingerprint
        { toolName := "exec", error := some "exit code 1", mutatingAction := some true } :=
  (buildWarningFingerprint_deterministic_40_hex
      { toolName := "exec", error := some "exit code 1", mutatingAction := some true }).2.2.2
    { toolName := "exec", error := some "exit code 1", mutatingAction := some false }
    rfl rfl rfl rfl

/-- The env parser in terms of the recognized token lists. -/
theorem parseOptionalBoolEnv_eq (value : Option String) :
    parseOptionalBoolEnv value =
      (if ["1", "true", "yes", "on"].contains (jsToLower (jsTrim (value.getD ""))) then some true
       else if ["0", "false", "no", "off"].contains (jsToLower (jsTrim (value.getD ""))) then
         some false
       else none) := by
  unfold parseOptionalBoolEnv
  by_cases h0 : (jsToLower (jsTrim (value.getD ""))).isEmpty = true
  · have he : jsToLower (jsTrim (value.getD "")) = "" :=
      (String.isEmpty_iff (jsToLower (jsTrim (value.getD "")))).1 h0
    rw [if_pos h0, he]
    rfl
  · rw [if_neg h0]

/-- C8: the router's effective `enabled` flag equals the environment override
when it trims/lowercases to a truthy (`1/true/yes/on`) or falsy
(`0/false/no/off`) token, otherwise the configured
`messages.toolWarnings.enabled` when set, otherwise `false`; in particular a
truthy env token forces routed behavior when config disables it and a falsy
env token forces legacy behavior when config enables it. -/
theorem resolveWarningPolicy_enabled_env_precedence (cfg : OpenClawConfig)
    (envEnabled : Option String) :
    (resolveWarningPolicy cfg envEnabled).enabled =
      (if ["1", "true", "yes", "on"].contains (jsToLower (jsTrim (envEnabled.getD ""))) then true
       else if ["0", "false", "no", "off"].contains (jsToLower (jsTrim (envEnabled.getD ""))) then
         false
       else ((cfg.messages.bind (·.toolWarnings)).bind (·.enabled)).getD false) := by
  show (parseOptionalBoolEnv envEnabled).getD
      (((cfg.messages.bind (·.toolWarnings)).bind (·.enabled)).getD false) = _
  rw [parseOptionalBoolEnv_eq]
  by_cases h1 : ["1", "true", "yes", "on"].contains (jsToLower (jsTrim (envEnabled.getD ""))) = true
  · rw [if_pos h1, if_pos h1]
    rfl
  · rw [if_neg h1, if_neg h1]
    by_cases h2 :
        ["0", "false", "no", "off"].contains (jsToLower (jsTrim (envEnabled.getD ""))) = true
    · rw [if_pos h2, if_pos h2]
      rfl
    · rw [if_neg h2, if_neg h2]
      rfl

/-- If the tool is classified neither mutating nor exec-like and its error
text is recoverable, no warning is decided, whatever the other-reply and
suppression context. -/
theorem shouldEmit_recoverable_false (lte : LastToolError)
    (hmut : lte.mutatingAction.getD (isLikelyMutatingToolName lte.toolName) = false)
    (hexec : isExecLikeToolName lte.toolName = false)
    (hrec : isRecoverableToolError lte.error = true) :
    ∀ hasUserFacingReply suppressToolErrors,
      (shouldEmitToolWarningEvent lte hasUserFacingReply suppressToolErrors).shouldEmit =
        false := by
  intro hr s
  simp [shouldEmitToolWarningEvent, hmut, hexec, hrec]

/-- C5: a tool error on a tool classified neither mutating nor exec-like whose
error text contains (case-insensitively) one of the recoverable keywords
(required, missing, invalid, must be, must have, needs, requires) produces no
warning event, whatever the rest of the turn looks like — in particular even
when no other user-facing reply exists. -/
theorem recoverable_tool_error_never_warns (params : BuildParams) (now : Int)
    (lte : LastToolError) (hlte : params.lastToolError = some lte)
    (hmut : lte.mutatingAction.getD (isLikelyMutatingToolName lte.toolName) = false)
    (hexec : isExecLikeToolName lte.toolName = false)
    (hrec : RECOVERABLE_TOOL_ERROR_KEYWORDS.any
      (fun keyword => strContains (jsToLower (lte.error.getD "")) keyword) = true) :
    (buildEmbeddedRunPayloads params now).warnings = [] := by
  have hrec' : isRecoverableToolError lte.error = true := hrec
  show buildWarningItems params now = []
  unfold buildWarningItems
  rw [hlte]
  simp [shouldEmit_recoverable_false lte hmut hexec hrec']

/-- Witness for C5: a non-mutating browser tool error saying "url required"
yields no warning even with no other reply in the turn. -/
theorem recoverable_tool_error_never_warns_witness :
    (buildEmbeddedRunPayloads
        { assistantTexts := [], toolMetas := [], sessionKey := "s",
          inlineToolResultsAllowed := false,
          lastToolError := some { toolName := "browser", error := some "url required" } }
        0).warnings = [] :=
  recoverable_tool_error_never_warns
    { assistantTexts := [], toolMetas := [], sessionKey := "s",
      inlineToolResultsAllowed := false,
      lastToolError := some { toolName := "browser", error := some "url required" } }
    0 { toolName := "browser", error := some "url required" } rfl (by decide) (by decide)
    (by decide)

/-- If the tool is classified mutating or exec-like, the emit decision is
positive regardless of other replies or suppression. -/
theorem shouldEmit_mutating_or_exec (lte : LastToolError)
    (hclass : lte.mutatingAction.getD (isLikelyMutatingToolName lte.toolName) = true ∨
      isExecLikeToolName lte.toolName = true) :
    ∀ hasUserFacingReply suppressToolErrors,
      shouldEmitToolWarningEvent lte hasUserFacingReply suppressToolErrors =
        { shouldEmit := true,
          isMutating := lte.mutatingAction.getD (isLikelyMutatingToolName lte.toolName) } := by
  intro hr s
  unfold shouldEmitToolWarningEvent
  rcases hclass with h | h <;> simp [h]

/-- The input refuting C2 as stated: a mutating tool error whose warning text
equals an assistant reply already in the turn. -/
def c2Params : BuildParams :=
  { assistantTexts := ["⚠️ 🛠️ Write failed: file missing"], toolMetas := [],
    lastAssistant := some { stopReason := "end_turn" },
    lastToolError := some { toolName := "write", error := some "file missing",
                            mutatingAction := some true },
    sessionKey := "s", inlineToolResultsAllowed := false }

/-- Counterexample to C2 as stated: this turn has a tool error explicitly
flagged mutating and a non-empty user-facing reply, yet
`buildEmbeddedRunPayloads` emits no warning event, because the warning text
duplicates the already-emitted reply text. -/
theorem mutating_warning_not_always_emitted :
    (c2Params.lastToolError.map
        (fun lte => lte.mutatingAction.getD (isLikelyMutatingToolName lte.toolName))) =
        some true ∧
      (buildEmbeddedRunPayloads c2Params 0).payloads ≠ [] ∧
      (buildEmbeddedRunPayloads c2Params 0).warnings = [] := by
  refine ⟨rfl, ?_, ?_⟩ <;> decide

/-- C2 (amended): for every tool error classified mutating (explicit
`mutatingAction` flag, or name-based inference when the flag is absent) or
exec-like (tool name trims/lowercases to "exec" or "bash"),
`buildEmbeddedRunPayloads` emits the warning event — even when a non-empty
user-facing reply already exists in the same turn and even when
`suppressToolErrors` is set — unless the warning's formatted text duplicates
an already-emitted reply text under the normalized comparison. -/
theorem mutating_or_exec_warning_emitted_unless_duplicate (params : BuildParams)
    (now : Int) (lte : LastToolError) (hlte : params.lastToolError = some lte)
    (hclass : lte.mutatingAction.getD (isLikelyMutatingToolName lte.toolName) = true ∨
      isExecLikeToolName lte.toolName = true)
    (hdup : isDuplicateWarningText (buildReplyItems params)
      (warningTextOf lte (useMarkdownOf params)) = false) :
    (buildEmbeddedRunPayloads params now).warnings =
      [{ kind := "tool_error", text := warningTextOf lte (useMarkdownOf params),
         toolName := lte.toolName, toolSummary := toolSummaryOf lte (useMarkdownOf params),
         errorText := lte.error,
         isMutating := lte.mutatingAction.getD (isLikelyMutatingToolName lte.toolName),
         fingerprint := buildWarningFingerprint lte, ts := now }] := by
  show buildWarningItems params now = _
  unfold buildWarningItems
  rw [hlte]
  simp only [shouldEmit_mutating_or_exec lte hclass, hdup]
  simp

/-- Witness for the amended C2: a "write" tool failure (mutating by name
inference) is emitted as a warning although the turn already contains the
reply "Done." and `suppressToolErrors` is on. -/
theorem mutating_or_exec_warning_emitted_unless_duplicate_witness :
    (buildEmbeddedRunPayloads
        { assistantTexts := ["Done."], toolMetas := [],
          lastAssistant := some { stopReason := "end_turn" },
          lastToolError := some { toolName := "write", error := some "connection timeout" },
          config := some { messages := some { suppressToolErrors := some true } },
          sessionKey := "s", inlineToolResultsAllowed := false }
        0).warnings =
      [{ kind := "tool_error",
         text := warningTextOf { toolName := "write", error := some "connection timeout" }
           (useMarkdownOf
             { assistantTexts := ["Done."], toolMetas := [],
               lastAssistant := some { stopReason := "end_turn" },
               lastToolError := some { toolName := "write", error := some "connection timeout" },
               config := some { messages := some { suppressToolErrors := some true } },
               sessionKey := "s", inlineToolResultsAllowed := false }),
         toolName := "write",
         toolSummary := toolSummaryOf { toolName := "write", error := some "connection timeout" }
           (useMarkdownOf
             { assistantTexts := ["Done."], toolMetas := [],
               lastAssistant := some { stopReason := "end_turn" },
               lastToolError := some { toolName := "write", error := some "connection timeout" },
               config := some { messages := some { suppressToolErrors := some true } },
               sessionKey := "s", inlineToolResultsAllowed := false }),
         errorText := some "connection timeout", isMutating := true,
         fingerprint := buildWarningFingerprint
           { toolName := "write", error := some "connection timeout" },
         ts := 0 }] := by
  have h := mutating_or_exec_warning_emitted_unless_duplicate
    { assistantTexts := ["Done."], toolMetas := [],
      lastAssistant := some { stopReason := "end_turn" },
      lastToolError := some { toolName := "write", error := some "connection timeout" },
      config := some { messages := some { suppressToolErrors := some true } },
      sessionKey := "s", inlineToolResultsAllowed := false }
    0 { toolName := "write", error := some "connection timeout" } rfl
    (Or.inl (by decide)) (by decide)
  simpa using h

/-- No suppression occurs for a turn that did not error. -/
theorem shouldSuppress_of_not_errored (ctx : ErrorSuppressCtx)
    (h : ctx.lastAssistantErrored = false) (t : String) :
    shouldSuppressRawErrorText ctx t = false := by
  simp [shouldSuppressRawErrorText, h]

/-- The errored flag of the comparison context, in terms of the input. -/
theorem mkCtx_errored (params : BuildParams) :
    (mkErrorSuppressCtx params).lastAssistantErrored =
      ((params.lastAssistant.map (·.stopReason)) = some "error" : Bool) := rfl

/-- When the turn did not error, every candidate answer text survives the
suppression filter. -/
theorem answerTexts_eq_candidates_of_not_errored (params : BuildParams)
    (herr : ¬((params.lastAssistant.map (·.stopReason)) = some "error")) :
    answerTextsOf params = answerCandidates params := by
  unfold answerTextsOf
  apply List.filter_eq_self.mpr
  intro t _
  rw [shouldSuppress_of_not_errored (mkErrorSuppressCtx params) (by
    rw [mkCtx_errored]
    exact decide_eq_false herr) t]
  rfl

/-- A trimmed-nonempty, non-silent text appearing among the answer texts
produces an ordinary payload carrying its trimmed text. -/
theorem answer_text_payload_exists (params : BuildParams) (now : Int) (t : String)
    (hans : t ∈ answerTextsOf params)
    (hne : (jsTrim t).isEmpty = false)
    (hsil : isSilentReplyText (jsTrim t) SILENT_REPLY_TOKEN = false) :
    ∃ p ∈ (buildEmbeddedRunPayloads params now).payloads,
      p.text = some (jsTrim t) ∧ p.isError = none := by
  have htne : t.isEmpty = false := by
    cases h : t.isEmpty
    · rfl
    · have ht : t = "" := (String.isEmpty_iff t).1 h
      rw [ht] at hne
      exact absurd hne (by decide)
  have hitem : ({ text := t } : ReplyItem) ∈ buildReplyItems params := by
    unfold buildReplyItems
    refine List.mem_append_right _ ?_
    unfold answerItemsOf
    refine List.mem_filterMap.mpr ⟨t, hans, ?_⟩
    simp [parseReplyDirectives, replyItemOfDirectives, htne]
  unfold buildEmbeddedRunPayloads postProcessReplyItems
  simp only [List.mem_filter, List.mem_map]
  refine ⟨_, ⟨⟨{ text := t }, hitem, rfl⟩, ?_⟩, ?_, ?_⟩
  · simp [hne, hsil]
  · simp [hne]
  · rfl

/-- C6: for every turn whose last assistant stop reason is not "error", no
candidate answer text is suppressed by the raw-error suppression rule — even
one parsing as a raw provider error payload — and a (trimmed-nonempty,
non-silent) candidate is emitted as an ordinary payload. -/
theorem no_suppression_when_not_errored (params : BuildParams) (now : Int) (t : String)
    (herr : ¬((params.lastAssistant.map (·.stopReason)) = some "error"))
    (hcand : t ∈ answerCandidates params)
    (hne : (jsTrim t).isEmpty = false)
    (hsil : isSilentReplyText (jsTrim t) SILENT_REPLY_TOKEN = false) :
    shouldSuppressRawErrorText (mkErrorSuppressCtx params) t = false ∧
      ∃ p ∈ (buildEmbeddedRunPayloads params now).payloads,
        p.text = some (jsTrim t) ∧ p.isError = none := by
  constructor
  · exact shouldSuppress_of_not_errored _ (by rw [mkCtx_errored]; exact decide_eq_false herr) t
  · exact answer_text_payload_exists params now t
      (by rw [answerTexts_eq_candidates_of_not_errored params herr]; exact hcand) hne hsil

theorem isRaw_empty_false : isRawApiErrorPayload "" = false := by decide

/-- When the turn errored, any candidate whose trimmed text parses as a raw
provider error payload is suppressed (via the shape-check fallback of the
rule, hence whether or not `errorMessage` is present). -/
theorem shouldSuppress_of_raw (ctx : ErrorSuppressCtx)
    (h : ctx.lastAssistantErrored = true) (t : String)
    (hr : isRawApiErrorPayload (jsTrim t) = true) :
    shouldSuppressRawErrorText ctx t = true := by
  have hne : (jsTrim t).isEmpty = false := by
    cases he : (jsTrim t).isEmpty
    · rfl
    · rw [(String.isEmpty_iff _).1 he] at hr
      exact absurd hr (by decide)
  simp [shouldSuppressRawErrorText, h, hne, hr]

/-- Suppression only looks at the trimmed candidate text. -/
theorem shouldSuppress_congr_trim (ctx : ErrorSuppressCtx) (u v : String)
    (h : jsTrim u = jsTrim v) :
    shouldSuppressRawErrorText ctx u = shouldSuppressRawErrorText ctx v := by
  unfold shouldSuppressRawErrorText
  rw [h]

/-- With no tool metas and reasoning not on, every surviving payload is either
the friendly error payload or an ordinary answer payload of a non-suppressed
candidate. -/
theorem mem_payloads_cases (params : BuildParams) (now : Int) (p : ReplyPayloadOut)
    (hmeta : params.toolMetas = []) (hreas : params.reasoningLevel ≠ some "on")
    (hp : p ∈ (buildEmbeddedRunPayloads params now).payloads) :
    (p.isError = some true ∧
        p.text = some (jsTrim ((mkErrorSuppressCtx params).errorText.getD ""))) ∨
      (p.isError = none ∧ ∃ u ∈ answerTextsOf params, p.text = some (jsTrim u)) := by
  have hi : inlineItemsOf params = [] := by
    simp [inlineItemsOf, hmeta]
  have hre : reasoningItemsOf params = [] := by
    cases h : params.lastAssistant <;>
      simp [reasoningItemsOf, h, hreas, show ("" : String).isEmpty = true from rfl]
  unfold buildEmbeddedRunPayloads postProcessReplyItems at hp
  obtain ⟨⟨item, hitem, rfl⟩, hfilter⟩ := by
    simpa only [List.mem_filter, List.mem_map] using hp
  rw [buildReplyItems, hi, hre] at hitem
  simp only [List.append_nil, List.mem_append] at hitem
  rcases hitem with hmem | hmem
  · -- the friendly error payload
    left
    unfold errorItemsOf at hmem
    cases he : (mkErrorSuppressCtx params).errorText with
    | none => rw [he] at hmem; simp at hmem
    | some et =>
      rw [he] at hmem
      dsimp only at hmem
      by_cases hee : et.isEmpty
      · rw [if_pos hee] at hmem; simp at hmem
      · rw [if_neg hee] at hmem
        simp only [List.mem_singleton] at hmem
        subst hmem
        by_cases hte : (jsTrim et).isEmpty
        · exfalso
          simp [hte] at hfilter
        · simp [hte, he]
  · -- an answer payload
    right
    unfold answerItemsOf at hmem
    obtain ⟨u, hu, hequ⟩ := List.mem_filterMap.1 hmem
    by_cases hcond : (parseReplyDirectives u).text.isEmpty &&
        ((parseReplyDirectives u).mediaUrls.getD []).isEmpty &&
        !((parseReplyDirectives u).audioAsVoice.getD false)
    · rw [if_pos hcond] at hequ; simp at hequ
    · rw [if_neg hcond] at hequ
      have hitem : item = { text := u } := by
        simpa [replyItemOfDirectives, parseReplyDirectives] using hequ.symm
      subst hitem
      by_cases hte : (jsTrim u).isEmpty
      · exfalso
        simp [hte] at hfilter
      · exact ⟨rfl, u, hu, by simp [hte]⟩

/-- C1: for every turn whose last assistant stop reason is "error" (with no
inline tool metas and reasoning not on), any candidate answer text whose
trimmed form is a raw provider error JSON — compact or pretty-printed,
whether or not `errorMessage` is present — is suppressed: it is filtered out
of the answer texts, no ordinary payload carries it, and every error payload
carries exactly the computed friendly message with `isError = true`. -/
theorem raw_error_json_suppressed (params : BuildParams) (now : Int) (t : String)
    (herr : (params.lastAssistant.map (·.stopReason)) = some "error")
    (hraw : isRawApiErrorPayload (jsTrim t) = true)
    (hmeta : params.toolMetas = []) (hreas : params.reasoningLevel ≠ some "on") :
    shouldSuppressRawErrorText (mkErrorSuppressCtx params) t = true ∧
      t ∉ answerTextsOf params ∧
      (∀ p ∈ (buildEmbeddedRunPayloads params now).payloads,
        p.isError = none → p.text ≠ some (jsTrim t)) ∧
      (∀ p ∈ (buildEmbeddedRunPayloads params now).payloads,
        p.isError = some true →
          p.text = some (jsTrim ((mkErrorSuppressCtx params).errorText.getD ""))) := by
  have hsup : shouldSuppressRawErrorText (mkErrorSuppressCtx params) t = true :=
    shouldSuppress_of_raw _ (by rw [mkCtx_errored]; exact decide_eq_true herr) t hraw
  refine ⟨hsup, ?_, ?_, ?_⟩
  · intro hmem
    have := (List.mem_filter.1 hmem).2
    rw [hsup] at this
    simp at this
  · intro p hp hpe hptext
    rcases mem_payloads_cases params now p hmeta hreas hp with ⟨he, _⟩ | ⟨_, u, hu, hut⟩
    · rw [hpe] at he; cases he
    · rw [hptext] at hut
      have htrim : jsTrim u = jsTrim t := by
        injection hut with h
        exact h.symm
      have husup : shouldSuppressRawErrorText (mkErrorSuppressCtx params) u = true := by
        rw [shouldSuppress_congr_trim _ u t htrim]
        exact hsup
      have := (List.mem_filter.1 hu).2
      rw [husup] at this
      simp at this
  · intro p hp hpe
    rcases mem_payloads_cases params now p hmeta hreas hp with ⟨_, he⟩ | ⟨hn, _⟩
    · exact he
    · rw [hpe] at hn; cases hn

/-- The compact raw provider error payload of the repository's tests. -/
def errJsonCompact : String :=
  "\x7b\"type\":\"error\",\"error\":\x7b\"details\":null,\"type\":\"overloaded_error\",\"message\":\"Overloaded\"\x7d,\"request_id\":\"req_011CX7DwS7tSvggaNHmefwWg\"\x7d"

/-- Its pretty-printed rendering. -/
def errJsonPretty : String :=
  "\x7b\n  \"type\": \"error\",\n  \"error\": \x7b\n    \"details\": null,\n    \"type\": \"overloaded_error\",\n    \"message\": \"Overloaded\"\n  \x7d,\n  \"request_id\": \"req_011CX7DwS7tSvggaNHmefwWg\"\n\x7d"

/-- An errored turn whose only candidate answer text is the pretty-printed
raw error JSON while `errorMessage` holds the compact rendering. -/
def c1Params : BuildParams :=
  { assistantTexts := [errJsonPretty], toolMetas := [],
    lastAssistant := some { stopReason := "error", errorMessage := some errJsonCompact,
                            content := [.text errJsonCompact] },
    sessionKey := "session:telegram", inlineToolResultsAllowed := false }

/-- Witness for C1 at the repository's own test input. -/
theorem raw_error_json_suppressed_witness :
    shouldSuppressRawErrorText (mkErrorSuppressCtx c1Params) errJsonPretty = true ∧
      errJsonPretty ∉ answerTextsOf c1Params ∧
      (∀ p ∈ (buildEmbeddedRunPayloads c1Params 0).payloads,
        p.isError = none → p.text ≠ some (jsTrim errJsonPretty)) ∧
      (∀ p ∈ (buildEmbeddedRunPayloads c1Params 0).payloads,
        p.isError = some true →
          p.text = some (jsTrim ((mkErrorSuppressCtx c1Params).errorText.getD ""))) :=
  raw_error_json_suppressed c1Params 0 errJsonPretty rfl (by decide) rfl (by decide)

/-- A non-errored turn presenting the same pretty-printed error-shaped JSON. -/
def c6Params : BuildParams :=
  { assistantTexts := [errJsonPretty], toolMetas := [],
    lastAssistant := some { stopReason := "stop" },
    sessionKey := "session:telegram", inlineToolResultsAllowed := false }

/-- Witness for C6: without an errored stop reason the error-shaped JSON is
not suppressed and is emitted as an ordinary payload. -/
theorem no_suppression_when_not_errored_witness :
    shouldSuppressRawErrorText (mkErrorSuppressCtx c6Params) errJsonPretty = false ∧
      ∃ p ∈ (buildEmbeddedRunPayloads c6Params 0).payloads,
        p.text = some (jsTrim errJsonPretty) ∧ p.isError = none :=
  no_suppression_when_not_errored c6Params 0 errJsonPretty (by decide) (by decide)
    (by decide) (by decide)

/-- Dedicated-route eligibility, spelled out: a route is configured and
either `execOnly` is off or the warning is exec-like. -/
theorem shouldRouteToWarnings_eq (w : EmbeddedPiWarningEvent)
    (policy : WarningRoutingPolicy) :
    shouldRouteWarningToWarningsChannel w policy =
      (policy.route.isSome && (!policy.execOnly || isExecLikeWarning w)) := by
  unfold shouldRouteWarningToWarningsChannel
  cases policy.route <;> cases he : policy.execOnly <;> simp [he]

/-- C4: in the enabled (routed) path, for a warning that passes the rate
limiter, the user-chat fallback decision is exactly: never when
`suppressToolErrors` is on; else always when the warning is not eligible for
the dedicated route; else, when eligible but delivery was never attempted,
only when `fallbackToUserChat`; else never when delivery succeeded; else
(delivery failed) only when `fallbackToUserChat`. -/
theorem user_chat_fallback_decision (cfg : OpenClawConfig) (envEnabled : Option String)
    (w : EmbeddedPiWarningEvent) (cache : FpCache) (now : Int) (deliver : Nat → Bool)
    (sessionKey : Option String)
    (hen : (resolveWarningPolicy cfg envEnabled).enabled = true)
    (htxt : (jsTrim w.text).isEmpty = false)
    (hpass : (shouldEmitByFingerprintRateLimit w.fingerprint
      (resolveWarningPolicy cfg envEnabled).dedupeWindowMs now cache).1 = true) :
    (∀ attempted succeeded : Bool,
      shouldRouteWarningToUserChat (resolveWarningPolicy cfg envEnabled) w attempted
          succeeded =
        (if (resolveWarningPolicy cfg envEnabled).suppressToolErrors then false
         else if !((resolveWarningPolicy cfg envEnabled).route.isSome &&
             (!(resolveWarningPolicy cfg envEnabled).execOnly || isExecLikeWarning w)) then
           true
         else if !attempted then (resolveWarningPolicy cfg envEnabled).fallbackToUserChat
         else if succeeded then false
         else (resolveWarningPolicy cfg envEnabled).fallbackToUserChat)) ∧
    (processWarningEvents [w] cfg envEnabled sessionKey now deliver cache).userPayloads =
      (if (resolveWarningPolicy cfg envEnabled).suppressToolErrors then []
       else if !((resolveWarningPolicy cfg envEnabled).route.isSome &&
           (!(resolveWarningPolicy cfg envEnabled).execOnly || isExecLikeWarning w)) then
         [{ text := jsTrim w.text, isError := true }]
       else if deliver 0 then []
       else if (resolveWarningPolicy cfg envEnabled).fallbackToUserChat then
         [{ text := jsTrim w.text, isError := true }]
       else []) := by
  constructor
  · intro att succ
    unfold shouldRouteWarningToUserChat
    rw [shouldRouteToWarnings_eq]
  · simp only [processWarningEvents, hen, Bool.not_true, Bool.false_eq_true, if_false,
      List.foldl_cons, List.foldl_nil]
    simp only [processOneWarning, htxt, Bool.false_eq_true, if_false, hpass, Bool.not_true,
      Bool.not_false, if_true, List.contains_nil]
    cases hro : (resolveWarningPolicy cfg envEnabled).route with
    | none =>
      have helig : shouldRouteWarningToWarningsChannel w (resolveWarningPolicy cfg envEnabled)
          = false := by
        rw [shouldRouteToWarnings_eq, hro]
        rfl
      cases hsup : (resolveWarningPolicy cfg envEnabled).suppressToolErrors <;>
        simp [helig, hro, shouldRouteWarningToUserChat, hsup]
    | some route =>
      cases hexo : (resolveWarningPolicy cfg envEnabled).execOnly <;>
        cases hexl : isExecLikeWarning w <;>
        cases hsup : (resolveWarningPolicy cfg envEnabled).suppressToolErrors <;>
        cases hdel : deliver 0 <;>
        cases hfb : (resolveWarningPolicy cfg envEnabled).fallbackToUserChat <;>
        simp [shouldRouteWarningToUserChat, shouldRouteToWarnings_eq, hro, hexo, hexl,
          hsup, hdel, hfb]

/-- The exec-tool warning event of the repository's router tests. -/
def execWarning : EmbeddedPiWarningEvent :=
  { kind := "tool_error", text := "⚠️ 🛠️ Exec failed: exit code 1", toolName := "exec",
    toolSummary := "🛠️ Exec", errorText := some "exit code 1", isMutating := false,
    fingerprint := "abc123", ts := 0 }

/-- An enabled routed configuration with a telegram warnings target. -/
def routedCfg : OpenClawConfig :=
  { messages := some { toolWarnings := some { enabled := some true,
                                              target := some "telegram",
                                              «to» := some "-1003842428779" } } }

/-- Witness for C4: an exec-like warning under the routed telegram
configuration, whose delivery attempt fails, falls back to user chat. -/
theorem user_chat_fallback_decision_witness :
    (resolveWarningPolicy routedCfg none).enabled = true ∧
      ((∀ attempted succeeded : Bool,
        shouldRouteWarningToUserChat (resolveWarningPolicy routedCfg none) execWarning
            attempted succeeded =
          (if (resolveWarningPolicy routedCfg none).suppressToolErrors then false
           else if !((resolveWarningPolicy routedCfg none).route.isSome &&
               (!(resolveWarningPolicy routedCfg none).execOnly ||
                 isExecLikeWarning execWarning)) then true
           else if !attempted then (resolveWarningPolicy routedCfg none).fallbackToUserChat
           else if succeeded then false
           else (resolveWarningPolicy routedCfg none).fallbackToUserChat)) ∧
      (processWarningEvents [execWarning] routedCfg none none 0 (fun _ => false)
          []).userPayloads =
        (if (resolveWarningPolicy routedCfg none).suppressToolErrors then []
         else if !((resolveWarningPolicy routedCfg none).route.isSome &&
             (!(resolveWarningPolicy routedCfg none).execOnly ||
               isExecLikeWarning execWarning)) then
           [{ text := jsTrim execWarning.text, isError := true }]
         else if (fun _ : Nat => false) 0 then []
         else if (resolveWarningPolicy routedCfg none).fallbackToUserChat then
           [{ text := jsTrim execWarning.text, isError := true }]
         else [])) :=
  ⟨by decide,
   user_chat_fallback_decision routedCfg none execWarning [] 0 (fun _ => false) none
     (by decide) (by decide) (by decide)⟩

/-- C10: in the enabled (routed) path a warning eligible for the dedicated
route that passes the rate limiter still triggers exactly one delivery
attempt to the configured channel even when `suppressToolErrors` is true —
suppression only prevents the user-chat fallback payload — unlike the
disabled/legacy path, where suppression makes the router's result empty. -/
theorem suppression_does_not_block_dedicated_route (cfg : OpenClawConfig)
    (envEnabled : Option String) (w : EmbeddedPiWarningEvent) (cache : FpCache)
    (now : Int) (deliver : Nat → Bool) (sessionKey : Option String) (route : WarningRoute)
    (hen : (resolveWarningPolicy cfg envEnabled).enabled = true)
    (hsup : (resolveWarningPolicy cfg envEnabled).suppressToolErrors = true)
    (hro : (resolveWarningPolicy cfg envEnabled).route = some route)
    (helig : (!(resolveWarningPolicy cfg envEnabled).execOnly || isExecLikeWarning w) = true)
    (htxt : (jsTrim w.text).isEmpty = false)
    (hpass : (shouldEmitByFingerprintRateLimit w.fingerprint
      (resolveWarningPolicy cfg envEnabled).dedupeWindowMs now cache).1 = true) :
    (processWarningEvents [w] cfg envEnabled sessionKey now deliver cache).deliveries =
        [{ channel := route.channel, «to» := route.«to», text := jsTrim w.text,
           sessionKey := sessionKey }] ∧
      (processWarningEvents [w] cfg envEnabled sessionKey now deliver cache).userPayloads =
        [] ∧
      ∀ (ws : List EmbeddedPiWarningEvent) (cfg₂ : OpenClawConfig)
        (env₂ sk₂ : Option String) (n₂ : Int) (d₂ : Nat → Bool) (c₂ : FpCache),
        (resolveWarningPolicy cfg₂ env₂).enabled = false →
        (resolveWarningPolicy cfg₂ env₂).suppressToolErrors = true →
        (processWarningEvents ws cfg₂ env₂ sk₂ n₂ d₂ c₂).userPayloads = [] ∧
          (processWarningEvents ws cfg₂ env₂ sk₂ n₂ d₂ c₂).deliveries = [] := by
  have hsr : shouldRouteWarningToWarningsChannel w (resolveWarningPolicy cfg envEnabled) =
      true := by
    rw [shouldRouteToWarnings_eq, hro]
    simpa using helig
  refine ⟨?_, ?_, ?_⟩
  · simp only [processWarningEvents, hen, Bool.not_true, Bool.false_eq_true, if_false,
      List.foldl_cons, List.foldl_nil]
    simp [processOneWarning, htxt, hpass, hro, hsr]
  · simp only [processWarningEvents, hen, Bool.not_true, Bool.false_eq_true, if_false,
      List.foldl_cons, List.foldl_nil]
    simp [processOneWarning, htxt, hpass, hro, hsr, shouldRouteWarningToUserChat, hsup]
  · intro ws cfg₂ env₂ sk₂ n₂ d₂ c₂ hen₂ hsup₂
    simp [processWarningEvents, hen₂, hsup₂]

/-- A routed configuration with global tool-error suppression on. -/
def routedSuppressCfg : OpenClawConfig :=
  { messages := some { suppressToolErrors := some true,
                       toolWarnings := some { enabled := some true,
                                              target := some "telegram",
                                              «to» := some "-1003842428779" } } }

/-- Witness for C10: under suppression the exec warning is still delivered to
the telegram route and the user chat stays empty; the same configuration with
routing disabled yields nothing at all. -/
theorem suppression_does_not_block_dedicated_route_witness :
    (processWarningEvents [execWarning] routedSuppressCfg none (some "agent:main") 0
        (fun _ => true) []).deliveries =
      [{ channel := "telegram", «to» := "-1003842428779",
         text := jsTrim execWarning.text, sessionKey := some "agent:main" }] ∧
      (processWarningEvents [execWarning] routedSuppressCfg none (some "agent:main") 0
        (fun _ => true) []).userPayloads = [] := by
  have h := suppression_does_not_block_dedicated_route routedSuppressCfg none execWarning
    [] 0 (fun _ => true) (some "agent:main")
    { channel := "telegram", «to» := "-1003842428779" }
    (by decide) (by decide) (by decide) (by decide) (by decide) (by decide)
  exact ⟨h.1, h.2.1⟩

theorem mapGet_set_self (m : FpCache) (k : String) (v : Int) :
    mapGet (mapSet m k v) k = some v := by
  induction m with
  | nil => simp [mapGet, mapSet]
  | cons e rest ih => by_cases he : e.1 = k <;> simp [mapGet, mapSet, he, ih]

theorem mapSet_length_of_get_none (m : FpCache) (k : String) (v : Int)
    (h : mapGet m k = none) : (mapSet m k v).length = m.length + 1 := by
  induction m with
  | nil => simp [mapSet]
  | cons e rest ih =>
    by_cases he : e.1 = k
    · rw [mapGet, if_pos he] at h
      cases h
    · rw [mapGet, if_neg he] at h
      simp [mapSet, he, ih h]

theorem mapSet_length_of_get_some (m : FpCache) (k : String) (v v' : Int)
    (h : mapGet m k = some v') : (mapSet m k v).length = m.length := by
  induction m with
  | nil => cases h
  | cons e rest ih =>
    by_cases he : e.1 = k
    · simp [mapSet, he]
    · rw [mapGet, if_neg he] at h
      simp [mapSet, he, ih h]

theorem prune_noop (now : Int) (m : FpCache)
    (h : m.length ≤ WARNING_FINGERPRINT_CACHE_LIMIT) :
    pruneWarningFingerprintCache now m = m := by
  unfold pruneWarningFingerprintCache
  rw [if_pos h]

/-- The rate limiter on a fresh fingerprint over a small cache: emit and
record the timestamp. -/
theorem rateLimit_fresh (f : String) (win now : Int) (cache : FpCache)
    (hfresh : mapGet cache f = none)
    (hsmall : cache.length < WARNING_FINGERPRINT_CACHE_LIMIT) :
    shouldEmitByFingerprintRateLimit f win now cache = (true, mapSet cache f now) := by
  unfold shouldEmitByFingerprintRateLimit
  rw [hfresh]
  rw [prune_noop now (mapSet cache f now) (by
    rw [mapSet_length_of_get_none cache f now hfresh]
    omega)]

/-- The rate limiter inside the window: skip, leaving the cache unchanged. -/
theorem rateLimit_within (f : String) (win now last : Int) (cache : FpCache)
    (hget : mapGet cache f = some last) (hwin : now - last < win) :
    shouldEmitByFingerprintRateLimit f win now cache = (false, cache) := by
  unfold shouldEmitByFingerprintRateLimit
  rw [hget]
  dsimp only
  rw [if_pos hwin]

/-- The rate limiter after the window: emit and re-record the timestamp. -/
theorem rateLimit_after (f : String) (win now last : Int) (cache : FpCache)
    (hget : mapGet cache f = some last) (hwin : ¬(now - last < win))
    (hsmall : cache.length ≤ WARNING_FINGERPRINT_CACHE_LIMIT) :
    shouldEmitByFingerprintRateLimit f win now cache = (true, mapSet cache f now) := by
  unfold shouldEmitByFingerprintRateLimit
  rw [hget]
  dsimp only
  rw [if_neg hwin]
  rw [prune_noop now (mapSet cache f now) (by
    rw [mapSet_length_of_get_some cache f now last hget]
    omega)]

/-- C3: with routing enabled, a warning carrying a fresh fingerprint is
routed on the first call and its timestamp recorded; a second call within
`dedupeWindowMs` is skipped entirely — no user-chat fallback, no delivery
attempt, cache untouched; a call after the window behaves exactly like a
fresh call again — and re-records the timestamp. -/
theorem dedupe_window_cross_call (cfg : OpenClawConfig) (envEnabled sk : Option String)
    (w : EmbeddedPiWarningEvent) (t0 t1 t2 : Int)
    (deliver1 deliver2 deliver3 : Nat → Bool) (cache0 : FpCache)
    (hen : (resolveWarningPolicy cfg envEnabled).enabled = true)
    (htxt : (jsTrim w.text).isEmpty = false)
    (hfresh : mapGet cache0 w.fingerprint = none)
    (hsmall : cache0.length < WARNING_FINGERPRINT_CACHE_LIMIT) :
    (processWarningEvents [w] cfg envEnabled sk t0 deliver1 cache0).cache =
        mapSet cache0 w.fingerprint t0 ∧
      mapGet (processWarningEvents [w] cfg envEnabled sk t0 deliver1 cache0).cache
          w.fingerprint = some t0 ∧
      (t1 - t0 < (resolveWarningPolicy cfg envEnabled).dedupeWindowMs →
        processWarningEvents [w] cfg envEnabled sk t1 deliver2
            (mapSet cache0 w.fingerprint t0) =
          { userPayloads := [], cache := mapSet cache0 w.fingerprint t0,
            deliveries := [] }) ∧
      (¬(t2 - t0 < (resolveWarningPolicy cfg envEnabled).dedupeWindowMs) →
        mapGet (processWarningEvents [w] cfg envEnabled sk t2 deliver3
            (mapSet cache0 w.fingerprint t0)).cache w.fingerprint = some t2 ∧
        (processWarningEvents [w] cfg envEnabled sk t2 deliver3
            (mapSet cache0 w.fingerprint t0)).userPayloads =
          (processWarningEvents [w] cfg envEnabled sk t2 deliver3 cache0).userPayloads ∧
        (processWarningEvents [w] cfg envEnabled sk t2 deliver3
            (mapSet cache0 w.fingerprint t0)).deliveries =
          (processWarningEvents [w] cfg envEnabled sk t2 deliver3 cache0).deliveries) := by
  have hrate0 := rateLimit_fresh w.fingerprint
    (resolveWarningPolicy cfg envEnabled).dedupeWindowMs t0 cache0 hfresh hsmall
  have hc1 : (processWarningEvents [w] cfg envEnabled sk t0 deliver1 cache0).cache =
      mapSet cache0 w.fingerprint t0 := by
    simp only [processWarningEvents, hen, Bool.not_true, Bool.false_eq_true, if_false,
      List.foldl_cons, List.foldl_nil]
    simp [processOneWarning, htxt, hrate0]
  refine ⟨hc1, ?_, ?_, ?_⟩
  · rw [hc1]
    exact mapGet_set_self cache0 w.fingerprint t0
  · intro hwin
    have hrate1 := rateLimit_within w.fingerprint
      (resolveWarningPolicy cfg envEnabled).dedupeWindowMs t1 t0
      (mapSet cache0 w.fingerprint t0) (mapGet_set_self cache0 w.fingerprint t0) hwin
    simp only [processWarningEvents, hen, Bool.not_true, Bool.false_eq_true, if_false,
      List.foldl_cons, List.foldl_nil]
    simp [processOneWarning, htxt, hrate1]
  · intro hwin
    have hlen1 : (mapSet cache0 w.fingerprint t0).length ≤ WARNING_FINGERPRINT_CACHE_LIMIT := by
      rw [mapSet_length_of_get_none cache0 w.fingerprint t0 hfresh]
      omega
    have hrate2 := rateLimit_after w.fingerprint
      (resolveWarningPolicy cfg envEnabled).dedupeWindowMs t2 t0
      (mapSet cache0 w.fingerprint t0) (mapGet_set_self cache0 w.fingerprint t0) hwin hlen1
    have hrate3 := rateLimit_fresh w.fingerprint
      (resolveWarningPolicy cfg envEnabled).dedupeWindowMs t2 cache0 hfresh hsmall
    refine ⟨?_, ?_, ?_⟩ <;>
      simp only [processWarningEvents, hen, Bool.not_true, Bool.false_eq_true, if_false,
        List.foldl_cons, List.foldl_nil] <;>
      simp [processOneWarning, htxt, hrate2, hrate3, mapGet_set_self]

/-- The routed configuration with a 60s dedupe window of the repository's
rate-limiting test. -/
def windowCfg : OpenClawConfig :=
  { messages := some { toolWarnings := some { enabled := some true,
                                              target := some "telegram",
                                              «to» := some "-1003842428779",
                                              dedupeWindowMs := some 60000 } } }

/-- Witness for C3: the first call records the fingerprint at time 0, a call
at 1000 ms is skipped entirely, and a call at 60000 ms re-records the
timestamp. -/
theorem dedupe_window_cross_call_witness :
    mapGet (processWarningEvents [execWarning] windowCfg none none 0 (fun _ => true)
        []).cache execWarning.fingerprint = some 0 ∧
      processWarningEvents [execWarning] windowCfg none none 1000 (fun _ => true)
          (mapSet [] execWarning.fingerprint 0) =
        { userPayloads := [], cache := mapSet [] execWarning.fingerprint 0,
          deliveries := [] } ∧
      mapGet (processWarningEvents [execWarning] windowCfg none none 60000 (fun _ => true)
          (mapSet [] execWarning.fingerprint 0)).cache execWarning.fingerprint =
        some 60000 := by
  obtain ⟨h1, h2, h3, h4⟩ := dedupe_window_cross_call windowCfg none none execWarning
    0 1000 60000 (fun _ => true) (fun _ => true) (fun _ => true) []
    (by decide) (by decide) (by decide) (by decide)
  exact ⟨h2, h3 (by decide), (h4 (by decide)).1⟩

/-! ### Cache well-formedness and the capacity bound (C9) -/

def cacheKeys (m : FpCache) : List String := m.map Prod.fst

/-- A well-formed fingerprint cache: distinct keys (a `Map` invariant) and no
empty-string fingerprints (warning fingerprints are 40-hex content hashes). -/
def CacheWF (m : FpCache) : Prop :=
  (cacheKeys m).Nodup ∧ ∀ e ∈ m, e.1 ≠ ""

theorem mapDelete_sublist (m : FpCache) (k : String) :
    List.Sublist (mapDelete m k) m := by
  induction m with
  | nil => exact List.Sublist.refl []
  | cons e rest ih =>
    by_cases he : e.1 = k
    · rw [mapDelete, if_pos he]
      exact List.sublist_cons_self e rest
    · rw [mapDelete, if_neg he]
      exact ih.cons₂ e

theorem sublist_WF {m' m : FpCache} (hs : List.Sublist m' m) (hwf : CacheWF m) :
    CacheWF m' :=
  ⟨hwf.1.sublist (hs.map Prod.fst), fun e he => hwf.2 e (hs.subset he)⟩

theorem foldlDelete_sublist (ks : List (String × Int)) :
    ∀ m : FpCache,
      List.Sublist
        (ks.foldl (fun acc e => if !e.1.isEmpty then mapDelete acc e.1 else acc) m) m := by
  induction ks with
  | nil => intro m; exact List.Sublist.refl m
  | cons e rest ih =>
    intro m
    rw [List.foldl_cons]
    by_cases he : !e.1.isEmpty
    · rw [if_pos he]
      exact (ih (mapDelete m e.1)).trans (mapDelete_sublist m e.1)
    · rw [if_neg he]
      exact ih m

theorem sweepOldEntries_sublist (now : Int) (es : List (String × Int)) :
    ∀ m : FpCache, List.Sublist (sweepOldEntries now es m) m := by
  induction es with
  | nil => intro m; exact List.Sublist.refl m
  | cons e rest ih =>
    intro m
    rw [show sweepOldEntries now (e :: rest) m =
      (let m' := if now - e.2 > DEFAULT_WARNING_DEDUPE_WINDOW_MS * 6 then mapDelete m e.1
        else m
       if m'.length ≤ WARNING_FINGERPRINT_CACHE_LIMIT then m'
       else sweepOldEntries now rest m') from rfl]
    by_cases hc : now - e.2 > DEFAULT_WARNING_DEDUPE_WINDOW_MS * 6
    · simp only [hc, if_true]
      by_cases hl : (mapDelete m e.1).length ≤ WARNING_FINGERPRINT_CACHE_LIMIT
      · simp only [if_pos hl]
        exact mapDelete_sublist m e.1
      · simp only [if_neg hl]
        exact (ih (mapDelete m e.1)).trans (mapDelete_sublist m e.1)
    · simp only [hc, if_false]
      by_cases hl : m.length ≤ WARNING_FINGERPRINT_CACHE_LIMIT
      · simp only [if_pos hl]
        exact List.Sublist.refl m
      · simp only [if_neg hl]
        exact ih m

theorem prune_sublist (now : Int) (m : FpCache) :
    List.Sublist (pruneWarningFingerprintCache now m) m := by
  unfold pruneWarningFingerprintCache
  by_cases hle : m.length ≤ WARNING_FINGERPRINT_CACHE_LIMIT
  · rw [if_pos hle]
  · rw [if_neg hle]
    have h1 := foldlDelete_sublist
      ((List.insertionSort (fun a b : String × Int => a.2 ≤ b.2) m).take
        (m.length - WARNING_FINGERPRINT_CACHE_LIMIT)) m
    by_cases hl : (((List.insertionSort (fun a b : String × Int => a.2 ≤ b.2) m).take
        (m.length - WARNING_FINGERPRINT_CACHE_LIMIT)).foldl
        (fun acc e => if !e.1.isEmpty then mapDelete acc e.1 else acc) m).length >
        WARNING_FINGERPRINT_CACHE_LIMIT
    · rw [if_pos hl]
      exact (sweepOldEntries_sublist now _ _).trans h1
    · rw [if_neg hl]
      exact h1

theorem mem_keys_mapDelete (m : FpCache) (k k' : String) (hne : k' ≠ k)
    (hm : k' ∈ cacheKeys m) : k' ∈ cacheKeys (mapDelete m k) := by
  induction m with
  | nil => cases hm
  | cons e rest ih =>
    rcases (by simpa [cacheKeys] using hm : k' = e.1 ∨ k' ∈ cacheKeys rest) with h | h
    · have hek : ¬e.1 = k := fun hc => hne (h.trans hc)
      rw [mapDelete, if_neg hek]
      simp [cacheKeys, h]
    · by_cases hek : e.1 = k
      · rw [mapDelete, if_pos hek]
        exact h
      · rw [mapDelete, if_neg hek]
        rcases List.mem_map.1 (ih h) with ⟨x, hx, rfl⟩
        exact List.mem_map_of_mem Prod.fst (List.mem_cons_of_mem e hx)

theorem mapDelete_length_of_mem (m : FpCache) (k : String) (hk : k ∈ cacheKeys m) :
    (mapDelete m k).length = m.length - 1 := by
  induction m with
  | nil => cases hk
  | cons e rest ih =>
    by_cases he : e.1 = k
    · rw [mapDelete, if_pos he]
      simp
    · rw [mapDelete, if_neg he]
      have hk' : k ∈ cacheKeys rest := by
        rcases (by simpa [cacheKeys] using hk : k = e.1 ∨ k ∈ cacheKeys rest) with h | h
        · exact absurd h.symm he
        · exact h
      have hpos : 0 < rest.length := by
        obtain ⟨x, hx, _⟩ := List.mem_map.1 hk'
        exact List.length_pos.2 (List.ne_nil_of_mem hx)
      have hlen := ih hk'
      simp only [List.length_cons]
      omega

/-- Deleting a list of distinct, present, non-empty keys removes exactly one
entry per key. -/
theorem foldlDelete_length (ks : List (String × Int)) :
    ∀ m : FpCache, (ks.map Prod.fst).Nodup → (∀ e ∈ ks, e.1 ≠ "") →
      (∀ e ∈ ks, e.1 ∈ cacheKeys m) →
      (ks.foldl (fun acc e => if !e.1.isEmpty then mapDelete acc e.1 else acc) m).length =
        m.length - ks.length := by
  induction ks with
  | nil => intro m _ _ _; simp
  | cons e rest ih =>
    intro m hnd hne hsub
    have hee : (!e.1.isEmpty) = true := by
      cases hc : e.1.isEmpty
      · rfl
      · exact absurd ((String.isEmpty_iff e.1).1 hc) (hne e (List.mem_cons_self e rest))
    rw [List.foldl_cons, if_pos hee]
    have hnd' : e.1 ∉ rest.map Prod.fst ∧ (rest.map Prod.fst).Nodup := by
      simpa [List.nodup_cons] using hnd
    have hdel : (mapDelete m e.1).length = m.length - 1 :=
      mapDelete_length_of_mem m e.1 (hsub e (List.mem_cons_self e rest))
    have hrec := ih (mapDelete m e.1) hnd'.2
      (fun x hx => hne x (List.mem_cons_of_mem e hx))
      (fun x hx => by
        refine mem_keys_mapDelete m e.1 x.1 ?_ (hsub x (List.mem_cons_of_mem e hx))
        intro hc
        exact hnd'.1 (hc ▸ List.mem_map_of_mem Prod.fst hx))
    rw [hrec, hdel]
    have hpos : 0 < m.length := by
      obtain ⟨x, hx, _⟩ := List.mem_map.1 (hsub e (List.mem_cons_self e rest))
      exact List.length_pos.2 (List.ne_nil_of_mem hx)
    simp only [List.length_cons]
    omega

/-- Pruning a well-formed cache always leaves at most the capacity: when over
capacity, the first phase deletes exactly the excess (the oldest-timestamp
entries first), landing exactly on the limit. -/
theorem prune_length_le (now : Int) (m : FpCache) (hwf : CacheWF m) :
    (pruneWarningFingerprintCache now m).length ≤ WARNING_FINGERPRINT_CACHE_LIMIT := by
  unfold pruneWarningFingerprintCache
  by_cases hle : m.length ≤ WARNING_FINGERPRINT_CACHE_LIMIT
  · rw [if_pos hle]
    exact hle
  · rw [if_neg hle]
    have hperm : List.Perm (List.insertionSort (fun a b : String × Int => a.2 ≤ b.2) m) m :=
      List.perm_insertionSort _ m
    set sorted := List.insertionSort (fun a b : String × Int => a.2 ≤ b.2) m with hsorted
    set excess := m.length - WARNING_FINGERPRINT_CACHE_LIMIT with hexcess
    have hndsorted : (sorted.map Prod.fst).Nodup :=
      ((hperm.map Prod.fst).nodup_iff).2 hwf.1
    have h1 : ((sorted.take excess).foldl
        (fun acc e => if !e.1.isEmpty then mapDelete acc e.1 else acc) m).length =
        m.length - (sorted.take excess).length := by
      refine foldlDelete_length (sorted.take excess) m ?_ ?_ ?_
      · rw [List.map_take]
        exact hndsorted.sublist (List.take_sublist excess _)
      · intro e he
        exact hwf.2 e (hperm.subset (List.mem_of_mem_take he))
      · intro e he
        exact List.mem_map_of_mem Prod.fst (hperm.subset (List.mem_of_mem_take he))
    have hsl : sorted.length = m.length := hperm.length_eq
    have htl : (sorted.take excess).length = excess := by
      rw [List.length_take, hsl]
      omega
    rw [htl] at h1
    have hlen : ((sorted.take excess).foldl
        (fun acc e => if !e.1.isEmpty then mapDelete acc e.1 else acc) m).length =
        WARNING_FINGERPRINT_CACHE_LIMIT := by
      rw [h1]
      have : WARNING_FINGERPRINT_CACHE_LIMIT < m.length := by omega
      omega
    rw [if_neg (by omega)]
    omega

theorem mem_mapSet (m : FpCache) (k : String) (v : Int) (x : String × Int)
    (hx : x ∈ mapSet m k v) : x ∈ m ∨ x = (k, v) := by
  induction m with
  | nil => simpa [mapSet] using hx
  | cons e rest ih =>
    by_cases he : e.1 = k
    · rw [mapSet, if_pos he] at hx
      rcases List.mem_cons.1 hx with h | h
      · exact Or.inr h
      · exact Or.inl (List.mem_cons_of_mem e h)
    · rw [mapSet, if_neg he] at hx
      rcases List.mem_cons.1 hx with h | h
      · exact Or.inl (h ▸ List.mem_cons_self e rest)
      · rcases ih h with h' | h'
        · exact Or.inl (List.mem_cons_of_mem e h')
        · exact Or.inr h'

theorem mem_keys_mapSet (m : FpCache) (k : String) (v : Int) (k' : String)
    (hk : k' ∈ cacheKeys (mapSet m k v)) : k' ∈ cacheKeys m ∨ k' = k := by
  obtain ⟨x, hx, rfl⟩ := List.mem_map.1 hk
  rcases mem_mapSet m k v x hx with h | h
  · exact Or.inl (List.mem_map_of_mem Prod.fst h)
  · exact Or.inr (by rw [h])

theorem mapSet_WF (m : FpCache) (k : String) (v : Int) (hwf : CacheWF m)
    (hk : k ≠ "") : CacheWF (mapSet m k v) := by
  constructor
  · induction m with
    | nil => simp [mapSet, cacheKeys]
    | cons e rest ih =>
      have hnd : e.1 ∉ cacheKeys rest ∧ (cacheKeys rest).Nodup := by
        simpa [cacheKeys, List.nodup_cons] using hwf.1
      by_cases he : e.1 = k
      · rw [mapSet, if_pos he]
        have : (cacheKeys ((k, v) :: rest)).Nodup ↔
            k ∉ cacheKeys rest ∧ (cacheKeys rest).Nodup := by
          simp [cacheKeys, List.nodup_cons]
        exact this.2 ⟨he ▸ hnd.1, hnd.2⟩
      · rw [mapSet, if_neg he]
        have hrest : (cacheKeys (mapSet rest k v)).Nodup :=
          ih ⟨hnd.2, fun x hx => hwf.2 x (List.mem_cons_of_mem e hx)⟩
        have hmem : e.1 ∉ cacheKeys (mapSet rest k v) := by
          intro hc
          rcases mem_keys_mapSet rest k v e.1 hc with h | h
          · exact hnd.1 h
          · exact he h
        simpa [cacheKeys, List.nodup_cons] using And.intro hmem hrest
  · intro x hx
    rcases mem_mapSet m k v x hx with h | h
    · exact hwf.2 x h
    · rw [h]
      exact hk

/-- After an actual insertion, the rate limiter leaves a cache of at most the
capacity. -/
theorem rateLimit_inserted_bound (f : String) (win now : Int) (cache : FpCache)
    (hwf : CacheWF cache) (hf : f ≠ "")
    (hemit : (shouldEmitByFingerprintRateLimit f win now cache).1 = true) :
    (shouldEmitByFingerprintRateLimit f win now cache).2.length ≤
      WARNING_FINGERPRINT_CACHE_LIMIT := by
  unfold shouldEmitByFingerprintRateLimit at hemit ⊢
  cases hget : mapGet cache f with
  | none =>
    dsimp only
    exact prune_length_le now _ (mapSet_WF cache f now hwf hf)
  | some last =>
    rw [hget] at hemit
    dsimp only at hemit ⊢
    by_cases hwin : now - last < win
    · rw [if_pos hwin] at hemit
      cases hemit
    · rw [if_neg hwin]
      exact prune_length_le now _ (mapSet_WF cache f now hwf hf)

/-- The rate limiter preserves cache well-formedness. -/
theorem rateLimit_WF (f : String) (win now : Int) (cache : FpCache)
    (hwf : CacheWF cache) (hf : f ≠ "") :
    CacheWF (shouldEmitByFingerprintRateLimit f win now cache).2 := by
  unfold shouldEmitByFingerprintRateLimit
  cases hget : mapGet cache f with
  | none =>
    dsimp only
    exact sublist_WF (prune_sublist now _) (mapSet_WF cache f now hwf hf)
  | some last =>
    dsimp only
    by_cases hwin : now - last < win
    · rw [if_pos hwin]
      exact hwf
    · rw [if_neg hwin]
      exact sublist_WF (prune_sublist now _) (mapSet_WF cache f now hwf hf)

/-- When the rate limiter skips, the cache is untouched. -/
theorem rateLimit_skipped (f : String) (win now : Int) (cache : FpCache)
    (hskip : (shouldEmitByFingerprintRateLimit f win now cache).1 = false) :
    (shouldEmitByFingerprintRateLimit f win now cache).2 = cache := by
  unfold shouldEmitByFingerprintRateLimit at hskip ⊢
  cases hget : mapGet cache f with
  | none =>
    rw [hget] at hskip
    dsimp only at hskip
    cases hskip
  | some last =>
    rw [hget] at hskip
    dsimp only at hskip ⊢
    by_cases hwin : now - last < win
    · rw [if_pos hwin]
    · rw [if_neg hwin] at hskip
      cases hskip

/-- One routed-loop step either leaves the cache untouched or (on insertion)
leaves at most the capacity, preserving well-formedness. -/
theorem processOne_cache_facts (policy : WarningRoutingPolicy) (sk : Option String)
    (now : Int) (deliver : Nat → Bool) (acc : RoutedAcc) (w : EmbeddedPiWarningEvent)
    (hwf : CacheWF acc.cache) (hf : w.fingerprint ≠ "") :
    CacheWF (processOneWarning policy sk now deliver acc w).cache ∧
      ((processOneWarning policy sk now deliver acc w).cache = acc.cache ∨
        (processOneWarning policy sk now deliver acc w).cache.length ≤
          WARNING_FINGERPRINT_CACHE_LIMIT) := by
  unfold processOneWarning
  cases h1 : (jsTrim w.text).isEmpty
  · cases h2 : acc.seen.contains (w.fingerprint ++ ":" ++ jsTrim w.text)
    · cases hemit : (shouldEmitByFingerprintRateLimit w.fingerprint policy.dedupeWindowMs
        now acc.cache).1
      · simp only [h1, h2, hemit, Bool.false_eq_true, if_false, Bool.not_false, if_true]
        rw [rateLimit_skipped _ _ _ _ hemit]
        exact ⟨hwf, Or.inl rfl⟩
      · simp only [h1, h2, hemit, Bool.false_eq_true, if_false, Bool.not_true]
        refine ⟨rateLimit_WF _ _ _ _ hwf hf, Or.inr ?_⟩
        exact rateLimit_inserted_bound _ _ _ _ hwf hf hemit
    · simp only [h1, h2, Bool.false_eq_true, if_false, if_true]
      exact ⟨hwf, Or.inl trivial⟩
  · simp only [h1, if_true]
    exact ⟨hwf, Or.inl trivial⟩

theorem foldl_processOne_bound (policy : WarningRoutingPolicy) (sk : Option String)
    (now : Int) (deliver : Nat → Bool) (B : Nat)
    (hB : WARNING_FINGERPRINT_CACHE_LIMIT ≤ B) :
    ∀ (ws : List EmbeddedPiWarningEvent) (acc : RoutedAcc), CacheWF acc.cache →
      acc.cache.length ≤ B → (∀ w ∈ ws, w.fingerprint ≠ "") →
      CacheWF ((ws.foldl (processOneWarning policy sk now deliver) acc).cache) ∧
        ((ws.foldl (processOneWarning policy sk now deliver) acc).cache).length ≤ B := by
  intro ws
  induction ws with
  | nil => intro acc hwf hlen _; exact ⟨hwf, hlen⟩
  | cons w rest ih =>
    intro acc hwf hlen hfs
    rw [List.foldl_cons]
    obtain ⟨hwf', hor⟩ := processOne_cache_facts policy sk now deliver acc w hwf
      (hfs w (List.mem_cons_self w rest))
    refine ih _ hwf' ?_ (fun x hx => hfs x (List.mem_cons_of_mem w hx))
    rcases hor with h | h
    · rw [h]
      exact hlen
    · omega

/-- C9: the process-wide fingerprint cache never grows unboundedly.  For a
well-formed cache (distinct keys, no empty fingerprint — warning fingerprints
are 40-hex content hashes, cf. C7), every insertion through the rate limiter
leaves at most `WARNING_FINGERPRINT_CACHE_LIMIT` (1024) entries — the pruning
step evicting oldest-timestamp entries first and sweeping stale entries if
still over capacity — and hence a whole router call never grows the cache
beyond `max` of its initial size and 1024. -/
theorem fingerprint_cache_bounded (cache : FpCache) (f : String) (win now : Int)
    (hwf : CacheWF cache) (hf : f ≠ "") :
    ((shouldEmitByFingerprintRateLimit f win now cache).1 = true →
        (shouldEmitByFingerprintRateLimit f win now cache).2.length ≤
          WARNING_FINGERPRINT_CACHE_LIMIT) ∧
      ∀ (ws : List EmbeddedPiWarningEvent) (cfg : OpenClawConfig)
        (envEnabled sk : Option String) (deliver : Nat → Bool),
        (∀ w ∈ ws, w.fingerprint ≠ "") →
        (processWarningEvents ws cfg envEnabled sk now deliver cache).cache.length ≤
          max cache.length WARNING_FINGERPRINT_CACHE_LIMIT := by
  constructor
  · intro hemit
    exact rateLimit_inserted_bound f win now cache hwf hf hemit
  · intro ws cfg envEnabled sk deliver hfs
    unfold processWarningEvents
    by_cases hen : (resolveWarningPolicy cfg envEnabled).enabled
    · simp only [hen, Bool.not_true, Bool.false_eq_true, if_false]
      exact (foldl_processOne_bound (resolveWarningPolicy cfg envEnabled) sk now deliver
        (max cache.length WARNING_FINGERPRINT_CACHE_LIMIT)
        (le_max_right _ _) ws
        { userPayloads := [], seen := [], cache := cache, deliveries := [] }
        hwf (le_max_left _ _) hfs).2
    · simp only [Bool.not_eq_true] at hen
      simp only [hen, Bool.not_false, if_true]
      by_cases hsup : (resolveWarningPolicy cfg envEnabled).suppressToolErrors
      · simp only [hsup, if_true]
        exact le_max_left _ _
      · simp only [hsup, Bool.false_eq_true, if_false]
        exact le_max_left _ _

/-- Witness for C9: inserting a fresh fingerprint into a small well-formed
cache keeps it within capacity, and a router call from it stays bounded. -/
theorem fingerprint_cache_bounded_witness :
    ((shouldEmitByFingerprintRateLimit "abc123" 60000 5 [("def456", 0)]).1 = true →
        (shouldEmitByFingerprintRateLimit "abc123" 60000 5 [("def456", 0)]).2.length ≤
          WARNING_FINGERPRINT_CACHE_LIMIT) ∧
      ∀ (ws : List EmbeddedPiWarningEvent) (cfg : OpenClawConfig)
        (envEnabled sk : Option String) (deliver : Nat → Bool),
        (∀ w ∈ ws, w.fingerprint ≠ "") →
        (processWarningEvents ws cfg envEnabled sk 5 deliver [("def456", 0)]).cache.length ≤
          max ([(("def456" : String), (0 : Int))].length) WARNING_FINGERPRINT_CACHE_LIMIT :=
  fingerprint_cache_bounded [("def456", 0)] "abc123" 60000 5
    (by constructor
        · decide
        · intro e he
          simp only [List.mem_singleton] at he
          rw [he]
          decide)
    (by decide)
